import Mathlib

/-!
A shallow embedding of the access-control, sharing-token and bundle logic of
the file-sharing application (sources: `app.py`, `db_wrapper.py`,
`database_service.py`).

Database tables are lists of records; the SQLite AUTOINCREMENT id columns are
modelled with explicit `next…` counters, and the `UNIQUE` constraints on
`files.share_token` and `file_bundles.share_token` (schema in
`database_service.py`, `create_initial_schema` and `migrate_to_version_3`)
are modelled by making the corresponding INSERT fail when the token is
already present — `sqlite3` raises `IntegrityError`, `execute_query`
re-raises, and the route performs no further writes.  The blob store
(`UPLOAD_FOLDER`) is the list of storage names present on disk.  Timestamp
columns are omitted: no claim refers to them (they only drive ORDER BY
clauses, and all claims are about membership, not ordering).

The SQLite connections are opened without `PRAGMA foreign_keys = ON`, and
the `bundle_files` foreign keys carry no ON DELETE action, so foreign keys
impose nothing at runtime: a `DELETE FROM files` leaves `bundle_files` rows
in place.  The embedding therefore gives `DELETE` statements exactly the
per-table effect of their SQL text.

HTTP callers are `Option Nat`: `none` is an anonymous request, `some uid`
an authenticated user with id `uid` (`current_user`).  `@login_required`
together with `login_manager.login_view = 'login'` redirects an anonymous
request to the login page (Flask-Login's default unauthorized handler),
modelled by the `loginRedirect` result.
-/

namespace FileSharing

/-- A row of the `files` table (schema version 3). -/
structure FileRec where
  id : Nat
  filename : String
  original_filename : String
  user_id : Nat
  is_public : Bool
  share_token : String
  file_size : Nat
  file_type : String
  download_count : Nat
  transaction_number : String
deriving Repr, DecidableEq

/-- A row of the `file_bundles` table. -/
structure BundleRec where
  id : Nat
  bundle_name : String
  transaction_number : String
  user_id : Nat
  is_public : Bool
  share_token : String
  download_count : Nat
deriving Repr, DecidableEq

/-- A row of the `bundle_files` association table. -/
structure BundleFileRec where
  id : Nat
  bundle_id : Nat
  file_id : Nat
deriving Repr, DecidableEq

/-- The database: the three tables the claims are about, plus the
AUTOINCREMENT counters of their id columns. -/
structure DB where
  files : List FileRec
  bundles : List BundleRec
  bundle_files : List BundleFileRec
  nextFileId : Nat
  nextBundleId : Nat
  nextBundleFileId : Nat
deriving Repr, DecidableEq

/-- Full system state: the database plus the blob store (the set of storage
names present under `UPLOAD_FOLDER`). -/
structure Sys where
  db : DB
  blobs : List String
deriving Repr, DecidableEq

/-- The empty initial state (fresh database, empty upload folder). -/
def Sys.empty : Sys :=
  { db := { files := [], bundles := [], bundle_files := [],
            nextFileId := 1, nextBundleId := 1, nextBundleFileId := 1 },
    blobs := [] }

/-! ### Query layer (`db_wrapper.py`) -/

/-- `get_file_by_token`: SELECT * FROM files WHERE share_token = ? (fetch_one). -/
def get_file_by_token (db : DB) (token : String) : Option FileRec :=
  db.files.find? (fun f => f.share_token == token)

/-- `get_file_by_id`: SELECT * FROM files WHERE id = ? (fetch_one). -/
def get_file_by_id (db : DB) (file_id : Nat) : Option FileRec :=
  db.files.find? (fun f => f.id == file_id)

/-- `get_bundle_by_token`: SELECT * FROM file_bundles WHERE share_token = ?. -/
def get_bundle_by_token (db : DB) (token : String) : Option BundleRec :=
  db.bundles.find? (fun b => b.share_token == token)

/-- `get_bundle_by_id`: SELECT * FROM file_bundles WHERE id = ?. -/
def get_bundle_by_id (db : DB) (bundle_id : Nat) : Option BundleRec :=
  db.bundles.find? (fun b => b.id == bundle_id)

/-- `get_bundle_files`: SELECT f.* FROM files f JOIN bundle_files bf ON
f.id = bf.file_id WHERE bf.bundle_id = ?.  (The ORDER BY upload_date is
dropped with the timestamp column; no claim depends on the order.) -/
def get_bundle_files (db : DB) (bundle_id : Nat) : List FileRec :=
  (db.bundle_files.filter (fun bf => bf.bundle_id == bundle_id)).filterMap
    (fun bf => db.files.find? (fun f => f.id == bf.file_id))

/-- `update_file_privacy`: UPDATE files SET is_public = ? WHERE id = ?. -/
def update_file_privacy (db : DB) (file_id : Nat) (is_public : Bool) : DB :=
  { db with
    files := db.files.map fun f =>
      if f.id = file_id then { f with is_public := is_public } else f }

/-- `update_file_name`: UPDATE files SET original_filename = ? WHERE id = ?. -/
def update_file_name (db : DB) (file_id : Nat) (new_name : String) : DB :=
  { db with
    files := db.files.map fun f =>
      if f.id = file_id then { f with original_filename := new_name } else f }

/-- `DatabaseWrapper.delete_file`: DELETE FROM files WHERE id = ?.
Nothing else is touched — in particular no `bundle_files` row is removed
(no cascade, see the header comment). -/
def db_delete_file (db : DB) (file_id : Nat) : DB :=
  { db with
    files := db.files.filter (fun f => ¬ f.id = file_id) }

/-- `increment_download_count`: UPDATE files SET download_count =
download_count + 1 WHERE id = ?. -/
def increment_download_count (db : DB) (file_id : Nat) : DB :=
  { db with
    files := db.files.map fun f =>
      if f.id = file_id then { f with download_count := f.download_count + 1 } else f }

/-- `verify_file_ownership`: SELECT id FROM files WHERE id = ? AND user_id = ?,
returning whether a row exists.  Defined in `db_wrapper.py` but never called
by any route of `app.py`. -/
def verify_file_ownership (db : DB) (file_id user_id : Nat) : Bool :=
  db.files.any (fun f => f.id == file_id && f.user_id == user_id)

/-- `create_file`: INSERT INTO files (...).  The `share_token` column is
UNIQUE, so the insert fails (and the table is unchanged) when the token is
already present; otherwise the row is appended with the next id and
`download_count` at its schema default 0. -/
def create_file (db : DB) (filename original_filename : String) (user_id : Nat)
    (is_public : Bool) (share_token : String) (file_size : Nat)
    (file_type transaction_number : String) : Option DB :=
  if db.files.any (fun f => f.share_token == share_token) then none
  else
    let row : FileRec :=
      { id := db.nextFileId, filename := filename,
        original_filename := original_filename, user_id := user_id,
        is_public := is_public, share_token := share_token,
        file_size := file_size, file_type := file_type,
        download_count := 0, transaction_number := transaction_number }
    some { db with files := db.files ++ [row], nextFileId := db.nextFileId + 1 }

/-- `create_bundle`: INSERT INTO file_bundles (...) followed by SELECT
last_insert_rowid().  The UNIQUE `share_token` makes the insert fail (and
the exception propagate) when the token is taken.  `execute_query` opens a
fresh sqlite3 connection for every query and `last_insert_rowid()` is
per-connection, so the follow-up SELECT runs on a connection that has
inserted nothing and returns 0 — the wrapper returns 0, not the new row's
id (the row itself was committed by the INSERT's own connection). -/
def create_bundle (db : DB) (bundle_name transaction_number : String)
    (user_id : Nat) (is_public : Bool) (share_token : String) :
    Option (DB × Nat) :=
  if db.bundles.any (fun b => b.share_token == share_token) then none
  else
    let row : BundleRec :=
      { id := db.nextBundleId, bundle_name := bundle_name,
        transaction_number := transaction_number, user_id := user_id,
        is_public := is_public, share_token := share_token, download_count := 0 }
    some ({ db with bundles := db.bundles ++ [row], nextBundleId := db.nextBundleId + 1 },
      0)

/-- `add_file_to_bundle`: INSERT INTO bundle_files (bundle_id, file_id)
VALUES (?, ?).  No uniqueness or ownership constraint applies. -/
def add_file_to_bundle (db : DB) (bundle_id file_id : Nat) : DB :=
  { db with
    bundle_files := db.bundle_files ++
      [{ id := db.nextBundleFileId, bundle_id := bundle_id, file_id := file_id }],
    nextBundleFileId := db.nextBundleFileId + 1 }

/-- `update_bundle_privacy`: UPDATE file_bundles SET is_public = ? WHERE id = ?. -/
def update_bundle_privacy (db : DB) (bundle_id : Nat) (is_public : Bool) : DB :=
  { db with
    bundles := db.bundles.map fun b =>
      if b.id = bundle_id then { b with is_public := is_public } else b }

/-- `update_bundle_info`: UPDATE file_bundles SET bundle_name = ?,
transaction_number = ?, is_public = ? WHERE id = ?. -/
def update_bundle_info (db : DB) (bundle_id : Nat)
    (bundle_name transaction_number : String) (is_public : Bool) : DB :=
  { db with
    bundles := db.bundles.map fun b =>
      if b.id = bundle_id then
        { b with bundle_name := bundle_name,
                 transaction_number := transaction_number,
                 is_public := is_public }
      else b }

/-- `remove_all_files_from_bundle`: DELETE FROM bundle_files WHERE bundle_id = ?. -/
def remove_all_files_from_bundle (db : DB) (bundle_id : Nat) : DB :=
  { db with
    bundle_files := db.bundle_files.filter (fun bf => ¬ bf.bundle_id = bundle_id) }

/-- `increment_bundle_download_count`: UPDATE file_bundles SET
download_count = download_count + 1 WHERE id = ?. -/
def increment_bundle_download_count (db : DB) (bundle_id : Nat) : DB :=
  { db with
    bundles := db.bundles.map fun b =>
      if b.id = bundle_id then { b with download_count := b.download_count + 1 } else b }

/-- `DatabaseWrapper.delete_bundle`: DELETE FROM bundle_files WHERE
bundle_id = ?, then DELETE FROM file_bundles WHERE id = ?. -/
def db_delete_bundle (db : DB) (bundle_id : Nat) : DB :=
  { db with
    bundle_files := db.bundle_files.filter (fun bf => ¬ bf.bundle_id = bundle_id),
    bundles := db.bundles.filter (fun b => ¬ b.id = bundle_id) }

/-! ### Route layer (`app.py`) -/

/-- Outcome of a read-by-token route, carrying the data rendered or served
on success. -/
inductive ReadResult (α : Type) where
  | notFound
  | forbidden
  | ok (data : α)
deriving Repr, DecidableEq

/-- Outcome of a state-changing route.  `loginRedirect` is Flask-Login's
redirect of an anonymous request to the login page; `validationError` a
flash-and-redirect on missing form data; `dbError` an exception escaping
from `execute_query` (HTTP 500); `createError` the `/create-bundle` route's
"Error creating bundle" flash-and-redirect branch. -/
inductive Res where
  | loginRedirect
  | forbidden
  | validationError
  | unsupportedType
  | ioError
  | dbError
  | createError
  | ok
deriving Repr, DecidableEq

/-- `app.config['ALLOWED_EXTENSIONS']`. -/
def ALLOWED_EXTENSIONS : List String :=
  ["png", "jpg", "jpeg", "gif", "pdf", "doc", "docx", "txt", "zip"]

/-- The characters after the last `'.'`, or `none` when no dot occurs.
(Structural form of python's `'.' in filename` / `filename.rsplit('.', 1)[1]`.) -/
def afterLastDot : List Char → Option (List Char)
  | [] => none
  | c :: cs =>
    match afterLastDot cs with
    | some e => some e
    | none => if c = '.' then some cs else none

/-- Python's ASCII `str.lower()`, character by character. -/
def strLower (s : String) : String :=
  String.mk (s.data.map Char.toLower)

/-- Python's `str.strip()`: leading and trailing whitespace removed. -/
def pyStrip (s : String) : String :=
  String.mk (((s.data.dropWhile Char.isWhitespace).reverse.dropWhile
    Char.isWhitespace).reverse)

/-- The extension part `filename.rsplit('.', 1)[1]` (callers guard on the
dot being present). -/
def extPart (filename : String) : String :=
  match afterLastDot filename.data with
  | some e => String.mk e
  | none => ""

/-- `allowed_file`: `'.' in filename and filename.rsplit('.', 1)[1].lower()
in app.config['ALLOWED_EXTENSIONS']`. -/
def allowed_file (filename : String) : Bool :=
  (afterLastDot filename.data).isSome &&
    ALLOWED_EXTENSIONS.contains (strLower (extPart filename))

/-- The `file_type` stored on upload: `filename.rsplit('.', 1)[1].lower()
if '.' in filename else 'unknown'`. -/
def file_type_of (filename : String) : String :=
  if (afterLastDot filename.data).isSome then strLower (extPart filename)
  else "unknown"

/-- Route `/file/<token>` (`shared_file`): token lookup, then the visibility
check `not file_data['is_public'] and (not current_user.is_authenticated or
current_user.id != file_data['user_id'])`, then the optional `from_bundle`
query parameter: the bundle context is attached only when the bundle token
resolves and the file's id occurs among the bundle's member file ids;
otherwise `bundle_data = None` silently. -/
def shared_file (db : DB) (caller : Option Nat) (token : String)
    (from_bundle : Option String) : ReadResult (FileRec × Option BundleRec) :=
  match get_file_by_token db token with
  | none => .notFound
  | some file_data =>
    if ¬ file_data.is_public ∧ caller ≠ some file_data.user_id then .forbidden
    else
      let bundle_data : Option BundleRec :=
        match from_bundle with
        | none => none
        | some bt =>
          match get_bundle_by_token db bt with
          | none => none
          | some b =>
            if file_data.id ∈ (get_bundle_files db b.id).map (fun f => f.id) then some b
            else none
      .ok (file_data, bundle_data)

/-- Outcome of route `/view/<token>`. -/
inductive ViewResult where
  | notFound
  | forbidden
  | inlinePdf (f : FileRec)
  | inlineImage (f : FileRec)
  | redirectDownload (token : String)
deriving Repr, DecidableEq

/-- Route `/view/<token>` (`view_file_content`): same lookup and visibility
check; a PDF is streamed inline after an explicit existence check of the
blob, images are served inline, anything else is redirected to the download
route.  The handler contains no database write at all, so every branch
returns the state unchanged. -/
def view_file_content (sys : Sys) (caller : Option Nat) (token : String) :
    ViewResult × Sys :=
  match get_file_by_token sys.db token with
  | none => (.notFound, sys)
  | some file_data =>
    if ¬ file_data.is_public ∧ caller ≠ some file_data.user_id then (.forbidden, sys)
    else if strLower file_data.file_type = "pdf" then
      if file_data.filename ∈ sys.blobs then (.inlinePdf file_data, sys)
      else (.notFound, sys)
    else if strLower file_data.file_type ∈ ["jpg", "jpeg", "png", "gif"] then
      (.inlineImage file_data, sys)
    else (.redirectDownload token, sys)

/-- Route `/download/<token>` (`download_file`): lookup, visibility check,
then `db.increment_download_count(file_data['id'])` and the attachment
response. -/
def download_file (db : DB) (caller : Option Nat) (token : String) :
    ReadResult FileRec × DB :=
  match get_file_by_token db token with
  | none => (.notFound, db)
  | some file_data =>
    if ¬ file_data.is_public ∧ caller ≠ some file_data.user_id then (.forbidden, db)
    else (.ok file_data, increment_download_count db file_data.id)

/-- Route `/toggle_public/<int:file_id>`: `@login_required`; then
`if not file_data or file_data['user_id'] != current_user.id: abort(403)`;
on success only the privacy flag is flipped. -/
def toggle_public (db : DB) (caller : Option Nat) (file_id : Nat) : Res × DB :=
  match caller with
  | none => (.loginRedirect, db)
  | some uid =>
    match get_file_by_id db file_id with
    | none => (.forbidden, db)
    | some file_data =>
      if file_data.user_id ≠ uid then (.forbidden, db)
      else (.ok, update_file_privacy db file_id (! file_data.is_public))

/-- Route `/delete/<int:file_id>` (`delete_file`): `@login_required`,
ownership check, `os.remove` of the blob when it exists, then
`db.delete_file` (which deletes only the `files` row). -/
def delete_file (sys : Sys) (caller : Option Nat) (file_id : Nat) : Res × Sys :=
  match caller with
  | none => (.loginRedirect, sys)
  | some uid =>
    match get_file_by_id sys.db file_id with
    | none => (.forbidden, sys)
    | some file_data =>
      if file_data.user_id ≠ uid then (.forbidden, sys)
      else
        (.ok, { db := db_delete_file sys.db file_id,
                blobs := sys.blobs.filter (fun n => ¬ n = file_data.filename) })

/-- Route `/rename_file/<int:file_id>` (POST): ownership check first, then
`if not new_name or not new_name.strip()` rejects, else the stripped name is
stored. -/
def rename_file (db : DB) (caller : Option Nat) (file_id : Nat) (new_name : String) :
    Res × DB :=
  match caller with
  | none => (.loginRedirect, db)
  | some uid =>
    match get_file_by_id db file_id with
    | none => (.forbidden, db)
    | some file_data =>
      if file_data.user_id ≠ uid then (.forbidden, db)
      else if pyStrip new_name = "" then (.validationError, db)
      else (.ok, update_file_name db file_id (pyStrip new_name))

/-- Route `/upload` (POST): empty-filename and missing-transaction-number
checks, the `allowed_file` extension check, then `file.save(filepath)`
(failure modelled by `blob_save_ok = false`: the exception propagates before
any write), then `db.create_file`.  The random storage name and share token
are inputs.  There is no try/except around `db.create_file`: when the
metadata INSERT fails the blob already written stays in place. -/
def upload (sys : Sys) (caller : Option Nat) (orig_filename : String)
    (is_public : Bool) (transaction_number : String) (unique_filename : String)
    (share_token : String) (file_size : Nat) (blob_save_ok : Bool) : Res × Sys :=
  match caller with
  | none => (.loginRedirect, sys)
  | some uid =>
    if orig_filename = "" then (.validationError, sys)
    else if transaction_number = "" then (.validationError, sys)
    else if allowed_file orig_filename then
      if ¬ blob_save_ok then (.ioError, sys)
      else
        let sys1 : Sys := { sys with blobs := unique_filename :: sys.blobs }
        match create_file sys1.db unique_filename orig_filename uid is_public
            share_token file_size (file_type_of orig_filename) transaction_number with
        | none => (.dbError, sys1)
        | some db2 => (.ok, { sys1 with db := db2 })
    else (.unsupportedType, sys)

/-- Route `/create-bundle` (POST): requires bundle name, transaction number
and a non-empty selection, then inserts the bundle row and tests
`if bundle_id:` (python truthiness of the returned integer).  Because
`create_bundle` returns 0 (see its header), that test is always falsy: the
route flashes "Error creating bundle" and never reaches the
`add_file_to_bundle` loop — no membership row is ever created by this
route, and no ownership check of the selected ids exists on either branch
(`verify_file_ownership` is never called). -/
def create_bundle_route (db : DB) (caller : Option Nat)
    (bundle_name transaction_number : String) (selected_files : List Nat)
    (is_public : Bool) (share_token : String) : Res × DB :=
  match caller with
  | none => (.loginRedirect, db)
  | some uid =>
    if bundle_name = "" ∨ transaction_number = "" ∨ selected_files = [] then
      (.validationError, db)
    else
      match create_bundle db bundle_name transaction_number uid is_public share_token with
      | none => (.dbError, db)
      | some (db1, bundle_id) =>
        if bundle_id ≠ 0 then
          (.ok, selected_files.foldl (fun d fid => add_file_to_bundle d bundle_id fid) db1)
        else (.createError, db1)

/-- Route `/bundle/<token>` (`shared_bundle`): token lookup, visibility
check, then the member files are listed. -/
def shared_bundle (db : DB) (caller : Option Nat) (token : String) :
    ReadResult (BundleRec × List FileRec) :=
  match get_bundle_by_token db token with
  | none => .notFound
  | some bundle_data =>
    if ¬ bundle_data.is_public ∧ caller ≠ some bundle_data.user_id then .forbidden
    else .ok (bundle_data, get_bundle_files db bundle_data.id)

/-- Route `/download-bundle/<token>`: lookup, visibility check, then the
bundle counter is incremented and the member files are zipped. -/
def download_bundle (db : DB) (caller : Option Nat) (token : String) :
    ReadResult (BundleRec × List FileRec) × DB :=
  match get_bundle_by_token db token with
  | none => (.notFound, db)
  | some bundle_data =>
    if ¬ bundle_data.is_public ∧ caller ≠ some bundle_data.user_id then (.forbidden, db)
    else
      let files := get_bundle_files db bundle_data.id
      (.ok (bundle_data, files), increment_bundle_download_count db bundle_data.id)

/-- Route `/toggle_bundle_public/<int:bundle_id>`: same shape as
`toggle_public`. -/
def toggle_bundle_public (db : DB) (caller : Option Nat) (bundle_id : Nat) : Res × DB :=
  match caller with
  | none => (.loginRedirect, db)
  | some uid =>
    match get_bundle_by_id db bundle_id with
    | none => (.forbidden, db)
    | some bundle_data =>
      if bundle_data.user_id ≠ uid then (.forbidden, db)
      else (.ok, update_bundle_privacy db bundle_id (! bundle_data.is_public))

/-- Route `/edit_bundle/<int:bundle_id>` (POST): ownership check, then only
bundle name and transaction number are required (an empty selection is
accepted), then full replace: `update_bundle_info`,
`remove_all_files_from_bundle`, and one `add_file_to_bundle` per submitted
id — again with no ownership check of the submitted file ids. -/
def edit_bundle (db : DB) (caller : Option Nat) (bundle_id : Nat)
    (bundle_name transaction_number : String) (selected_files : List Nat)
    (is_public : Bool) : Res × DB :=
  match caller with
  | none => (.loginRedirect, db)
  | some uid =>
    match get_bundle_by_id db bundle_id with
    | none => (.forbidden, db)
    | some bundle_data =>
      if bundle_data.user_id ≠ uid then (.forbidden, db)
      else if bundle_name = "" ∨ transaction_number = "" then (.validationError, db)
      else
        let db1 := update_bundle_info db bundle_id bundle_name transaction_number is_public
        let db2 := remove_all_files_from_bundle db1 bundle_id
        (.ok, selected_files.foldl (fun d fid => add_file_to_bundle d bundle_id fid) db2)

/-- Route `/delete_bundle/<int:bundle_id>`: ownership check, then
`db.delete_bundle` (membership rows first, then the bundle row). -/
def delete_bundle (db : DB) (caller : Option Nat) (bundle_id : Nat) : Res × DB :=
  match caller with
  | none => (.loginRedirect, db)
  | some uid =>
    match get_bundle_by_id db bundle_id with
    | none => (.forbidden, db)
    | some bundle_data =>
      if bundle_data.user_id ≠ uid then (.forbidden, db)
      else (.ok, db_delete_bundle db bundle_id)

/-! ### The request machine -/

/-- One HTTP request to a state-changing route, with the request's caller
and its form/query inputs (the randomly generated values — storage-name
prefix and share token — appear as inputs). -/
inductive Op where
  | uploadOp (caller : Option Nat) (orig_filename : String) (is_public : Bool)
      (transaction_number unique_filename share_token : String) (file_size : Nat)
      (blob_save_ok : Bool)
  | viewOp (caller : Option Nat) (token : String)
  | downloadOp (caller : Option Nat) (token : String)
  | togglePublicOp (caller : Option Nat) (file_id : Nat)
  | deleteFileOp (caller : Option Nat) (file_id : Nat)
  | renameFileOp (caller : Option Nat) (file_id : Nat) (new_name : String)
  | createBundleOp (caller : Option Nat) (bundle_name transaction_number : String)
      (selected_files : List Nat) (is_public : Bool) (share_token : String)
  | downloadBundleOp (caller : Option Nat) (token : String)
  | toggleBundlePublicOp (caller : Option Nat) (bundle_id : Nat)
  | editBundleOp (caller : Option Nat) (bundle_id : Nat)
      (bundle_name transaction_number : String) (selected_files : List Nat)
      (is_public : Bool)
  | deleteBundleOp (caller : Option Nat) (bundle_id : Nat)

/-- The state after serving one request.  The pure read routes
(`shared_file`, `shared_bundle`) perform no write and need no constructor;
`view_file_content` is kept as an op because claim-relevant behaviour
(download accounting) distinguishes it from `download_file`. -/
def step (sys : Sys) : Op → Sys
  | .uploadOp c o p t u s fs b => (upload sys c o p t u s fs b).2
  | .viewOp c t => (view_file_content sys c t).2
  | .downloadOp c t => { sys with db := (download_file sys.db c t).2 }
  | .togglePublicOp c fid => { sys with db := (toggle_public sys.db c fid).2 }
  | .deleteFileOp c fid => (delete_file sys c fid).2
  | .renameFileOp c fid n => { sys with db := (rename_file sys.db c fid n).2 }
  | .createBundleOp c n t sel p tok =>
      { sys with db := (create_bundle_route sys.db c n t sel p tok).2 }
  | .downloadBundleOp c t => { sys with db := (download_bundle sys.db c t).2 }
  | .toggleBundlePublicOp c bid => { sys with db := (toggle_bundle_public sys.db c bid).2 }
  | .editBundleOp c bid n t sel p => { sys with db := (edit_bundle sys.db c bid n t sel p).2 }
  | .deleteBundleOp c bid => { sys with db := (delete_bundle sys.db c bid).2 }

/-- States reachable from a fresh deployment by serving requests. -/
inductive Reachable : Sys → Prop where
  | init : Reachable Sys.empty
  | next (op : Op) {sys : Sys} : Reachable sys → Reachable (step sys op)

/-! ### List helper lemmas -/

/-- Mapping a field-preserving row update does not change the projected
column. -/
theorem map_map_eq_self {α β : Type} (l : List α) (g : α → α) (f : α → β)
    (h : ∀ a, f (g a) = f a) : (l.map g).map f = l.map f := by
  induction l with
  | nil => rfl
  | cons a t ih => simp only [List.map_cons, h, ih]

/-- A projected column stays duplicate-free when rows are filtered out. -/
theorem nodup_map_of_filter {α β : Type} (p : α → Bool) (f : α → β) {l : List α}
    (h : (l.map f).Nodup) : ((l.filter p).map f).Nodup :=
  h.sublist (List.Sublist.map f (List.filter_sublist l))

/-- Appending a row whose projected value is fresh keeps the projected
column duplicate-free. -/
theorem nodup_map_append_singleton {α β : Type} (l : List α) (a : α) (f : α → β)
    (h : (l.map f).Nodup) (ha : f a ∉ l.map f) : ((l ++ [a]).map f).Nodup := by
  simp only [List.map_append, List.map_cons, List.map_nil, List.nodup_append]
  exact ⟨h, List.nodup_singleton _, by
    intro x hx hx'
    simp only [List.mem_singleton] at hx'
    exact ha (hx' ▸ hx)⟩

/-! ### Effect of bundle-membership insertion -/

/-- Folding `add_file_to_bundle` over a selection leaves every other table
and the entity counters unchanged. -/
theorem foldl_add_frame (sel : List Nat) (bid : Nat) (db : DB) :
    (sel.foldl (fun d fid => add_file_to_bundle d bid fid) db).files = db.files ∧
    (sel.foldl (fun d fid => add_file_to_bundle d bid fid) db).bundles = db.bundles ∧
    (sel.foldl (fun d fid => add_file_to_bundle d bid fid) db).nextFileId = db.nextFileId ∧
    (sel.foldl (fun d fid => add_file_to_bundle d bid fid) db).nextBundleId = db.nextBundleId := by
  induction sel generalizing db with
  | nil => exact ⟨rfl, rfl, rfl, rfl⟩
  | cons a t ih => exact ih (add_file_to_bundle db bid a)

/-- The membership rows a fold of `add_file_to_bundle` produces for its
bundle: the previous rows for that bundle followed by the submitted file
ids, in order. -/
theorem foldl_add_bundle_files (sel : List Nat) (bid : Nat) (db : DB) :
    (((sel.foldl (fun d fid => add_file_to_bundle d bid fid) db).bundle_files.filter
        (fun bf => bf.bundle_id == bid)).map (fun bf => bf.file_id))
      = ((db.bundle_files.filter (fun bf => bf.bundle_id == bid)).map
          (fun bf => bf.file_id)) ++ sel := by
  induction sel generalizing db with
  | nil => simp
  | cons a t ih =>
    rw [List.foldl_cons, ih]
    simp [add_file_to_bundle, List.filter_append]

/-! ### The machine invariant -/

/-- Database part of the machine invariant: the UNIQUE share-token columns
and the id columns are duplicate-free, and the AUTOINCREMENT counters bound
every id present. -/
def DBInv (db : DB) : Prop :=
  (db.files.map (fun f => f.share_token)).Nodup ∧
  (db.bundles.map (fun b => b.share_token)).Nodup ∧
  (db.files.map (fun f => f.id)).Nodup ∧
  (db.bundles.map (fun b => b.id)).Nodup ∧
  (∀ f ∈ db.files, f.id < db.nextFileId) ∧
  (∀ b ∈ db.bundles, b.id < db.nextBundleId)

theorem dbinv_empty : DBInv Sys.empty.db := by
  refine ⟨?_, ?_, ?_, ?_, ?_, ?_⟩ <;> simp [Sys.empty]

/-- Row updates that keep the token and id fields preserve the invariant. -/
theorem dbinv_files_map (db : DB) (g : FileRec → FileRec)
    (htok : ∀ f, (g f).share_token = f.share_token)
    (hid : ∀ f, (g f).id = f.id)
    (h : DBInv db) : DBInv { db with files := db.files.map g } := by
  obtain ⟨h1, h2, h3, h4, h5, h6⟩ := h
  refine ⟨?_, h2, ?_, h4, ?_, h6⟩
  · rw [map_map_eq_self _ _ _ htok]; exact h1
  · rw [map_map_eq_self _ _ _ hid]; exact h3
  · intro f hf
    obtain ⟨f0, hf0, rfl⟩ := List.mem_map.1 hf
    rw [hid]; exact h5 f0 hf0

/-- Same for the bundle table. -/
theorem dbinv_bundles_map (db : DB) (g : BundleRec → BundleRec)
    (htok : ∀ b, (g b).share_token = b.share_token)
    (hid : ∀ b, (g b).id = b.id)
    (h : DBInv db) : DBInv { db with bundles := db.bundles.map g } := by
  obtain ⟨h1, h2, h3, h4, h5, h6⟩ := h
  refine ⟨h1, ?_, h3, ?_, h5, ?_⟩
  · rw [map_map_eq_self _ _ _ htok]; exact h2
  · rw [map_map_eq_self _ _ _ hid]; exact h4
  · intro b hb
    obtain ⟨b0, hb0, rfl⟩ := List.mem_map.1 hb
    rw [hid]; exact h6 b0 hb0

/-- Deleting file rows preserves the invariant. -/
theorem dbinv_files_filter (db : DB) (p : FileRec → Bool)
    (h : DBInv db) : DBInv { db with files := db.files.filter p } := by
  obtain ⟨h1, h2, h3, h4, h5, h6⟩ := h
  exact ⟨nodup_map_of_filter p _ h1, h2, nodup_map_of_filter p _ h3, h4,
    fun f hf => h5 f (List.mem_of_mem_filter hf), h6⟩

/-- Deleting bundle rows and membership rows preserves the invariant. -/
theorem dbinv_bundles_filter (db : DB) (p : BundleRec → Bool)
    (q : BundleFileRec → Bool) (h : DBInv db) :
    DBInv { db with bundles := db.bundles.filter p, bundle_files := db.bundle_files.filter q } := by
  obtain ⟨h1, h2, h3, h4, h5, h6⟩ := h
  exact ⟨h1, nodup_map_of_filter p _ h2, h3, nodup_map_of_filter p _ h4, h5,
    fun b hb => h6 b (List.mem_of_mem_filter hb)⟩

/-- Membership-row updates alone preserve the invariant. -/
theorem dbinv_bundle_files_any (db : DB) (l : List BundleFileRec) (n : Nat)
    (h : DBInv db) : DBInv { db with bundle_files := l, nextBundleFileId := n } :=
  h

/-- A successful `create_file` preserves the invariant: the guard keeps the
token column duplicate-free and the counter keeps the id column fresh. -/
theorem dbinv_create_file (db db' : DB) (fn ofn : String) (uid : Nat) (p : Bool)
    (tok : String) (sz : Nat) (ft txn : String)
    (hc : create_file db fn ofn uid p tok sz ft txn = some db')
    (h : DBInv db) : DBInv db' := by
  obtain ⟨h1, h2, h3, h4, h5, h6⟩ := h
  unfold create_file at hc
  split at hc
  · exact absurd hc (by simp)
  · next hguard =>
    simp only [Option.some.injEq] at hc
    subst hc
    refine ⟨?_, h2, ?_, h4, ?_, h6⟩
    · refine nodup_map_append_singleton _ _ _ h1 ?_
      intro hmem
      obtain ⟨f0, hf0, hf0t⟩ := List.mem_map.1 hmem
      exact hguard (List.any_eq_true.2 ⟨f0, hf0, by simp [hf0t]⟩)
    · refine nodup_map_append_singleton _ _ _ h3 ?_
      intro hmem
      obtain ⟨f0, hf0, hf0t⟩ := List.mem_map.1 hmem
      exact absurd hf0t (Nat.ne_of_lt (h5 f0 hf0))
    · intro f hf
      rcases List.mem_append.1 hf with hf | hf
      · exact Nat.lt_succ_of_lt (h5 f hf)
      · simp only [List.mem_singleton] at hf
        subst hf
        exact Nat.lt_succ_self _

/-- A successful `create_bundle` preserves the invariant. -/
theorem dbinv_create_bundle (db db' : DB) (bn txn : String) (uid : Nat)
    (p : Bool) (tok : String) (bid : Nat)
    (hc : create_bundle db bn txn uid p tok = some (db', bid))
    (h : DBInv db) : DBInv db' := by
  obtain ⟨h1, h2, h3, h4, h5, h6⟩ := h
  unfold create_bundle at hc
  split at hc
  · exact absurd hc (by simp)
  · next hguard =>
    simp only [Option.some.injEq, Prod.mk.injEq] at hc
    obtain ⟨hc, -⟩ := hc
    subst hc
    refine ⟨h1, ?_, h3, ?_, h5, ?_⟩
    · refine nodup_map_append_singleton _ _ _ h2 ?_
      intro hmem
      obtain ⟨b0, hb0, hb0t⟩ := List.mem_map.1 hmem
      exact hguard (List.any_eq_true.2 ⟨b0, hb0, by simp [hb0t]⟩)
    · refine nodup_map_append_singleton _ _ _ h4 ?_
      intro hmem
      obtain ⟨b0, hb0, hb0t⟩ := List.mem_map.1 hmem
      exact absurd hb0t (Nat.ne_of_lt (h6 b0 hb0))
    · intro b hb
      rcases List.mem_append.1 hb with hb | hb
      · exact Nat.lt_succ_of_lt (h6 b hb)
      · simp only [List.mem_singleton] at hb
        subst hb
        exact Nat.lt_succ_self _

/-- Folding membership insertions preserves the invariant (it touches no
column the invariant mentions). -/
theorem dbinv_foldl_add (sel : List Nat) (bid : Nat) (db : DB) (h : DBInv db) :
    DBInv (sel.foldl (fun d fid => add_file_to_bundle d bid fid) db) := by
  obtain ⟨e1, e2, e3, e4⟩ := foldl_add_frame sel bid db
  unfold DBInv
  rw [e1, e2, e3, e4]
  exact h

/-- Serving any request preserves the database invariant. -/
theorem step_dbinv (sys : Sys) (op : Op) (h : DBInv sys.db) : DBInv (step sys op).db := by
  cases op with
  | uploadOp c o p t u tok fs b =>
    show DBInv (upload sys c o p t u tok fs b).2.db
    unfold upload
    cases c with
    | none => exact h
    | some uid =>
      dsimp only
      split
      · exact h
      split
      · exact h
      split
      · split
        · exact h
        · split
          · exact h
          · next db2 hc => exact dbinv_create_file _ _ _ _ _ _ _ _ _ _ hc h
      · exact h
  | viewOp c t =>
    show DBInv (view_file_content sys c t).2.db
    have hv : (view_file_content sys c t).2 = sys := by
      unfold view_file_content
      split
      · rfl
      · split
        · rfl
        · split
          · split <;> rfl
          · split <;> rfl
          
    rw [hv]
    exact h
  | downloadOp c t =>
    show DBInv (download_file sys.db c t).2
    unfold download_file
    split
    · exact h
    · split
      · exact h
      · exact dbinv_files_map _ _
          (fun f => by split <;> rfl)
          (fun f => by split <;> rfl) h
  | togglePublicOp c fid =>
    show DBInv (toggle_public sys.db c fid).2
    unfold toggle_public
    split
    · exact h
    split
    · exact h
    split
    · exact h
    · exact dbinv_files_map _ _
        (fun f => by split <;> rfl)
        (fun f => by split <;> rfl) h
  | deleteFileOp c fid =>
    show DBInv (delete_file sys c fid).2.db
    unfold delete_file
    split
    · exact h
    split
    · exact h
    split
    · exact h
    · exact dbinv_files_filter _ _ h
  | renameFileOp c fid n =>
    show DBInv (rename_file sys.db c fid n).2
    unfold rename_file
    split
    · exact h
    split
    · exact h
    split
    · exact h
    split
    · exact h
    · exact dbinv_files_map _ _
        (fun f => by split <;> rfl)
        (fun f => by split <;> rfl) h
  | createBundleOp c n t sel p tok =>
    show DBInv (create_bundle_route sys.db c n t sel p tok).2
    unfold create_bundle_route
    split
    · exact h
    split
    · exact h
    · split
      · exact h
      · next db1 bid hc =>
        split
        · exact dbinv_foldl_add sel bid _ (dbinv_create_bundle _ _ _ _ _ _ _ _ hc h)
        · exact dbinv_create_bundle _ _ _ _ _ _ _ _ hc h
  | downloadBundleOp c t =>
    show DBInv (download_bundle sys.db c t).2
    unfold download_bundle
    split
    · exact h
    · split
      · exact h
      · exact dbinv_bundles_map _ _
          (fun b => by split <;> rfl)
          (fun b => by split <;> rfl) h
  | toggleBundlePublicOp c bid =>
    show DBInv (toggle_bundle_public sys.db c bid).2
    unfold toggle_bundle_public
    split
    · exact h
    split
    · exact h
    split
    · exact h
    · exact dbinv_bundles_map _ _
        (fun b => by split <;> rfl)
        (fun b => by split <;> rfl) h
  | editBundleOp c bid n t sel p =>
    show DBInv (edit_bundle sys.db c bid n t sel p).2
    unfold edit_bundle
    split
    · exact h
    split
    · exact h
    split
    · exact h
    split
    · exact h
    · refine dbinv_foldl_add sel bid _ ?_
      refine dbinv_bundle_files_any _ _ _ ?_
      exact dbinv_bundles_map _ _
        (fun b => by split <;> rfl)
        (fun b => by split <;> rfl) h
  | deleteBundleOp c bid =>
    show DBInv (delete_bundle sys.db c bid).2
    unfold delete_bundle
    split
    · exact h
    split
    · exact h
    split
    · exact h
    · exact dbinv_bundles_filter _ _ _ h

/-- Every reachable state satisfies the database invariant. -/
theorem reachable_dbinv {sys : Sys} (h : Reachable sys) : DBInv sys.db := by
  induction h with
  | init => exact dbinv_empty
  | next op _ ih => exact step_dbinv _ op ih

/-! ### Route characterization lemmas -/

/-- The bundle context `shared_file` computes from the `from_bundle`
parameter once the file is resolved and readable. -/
def bundle_context (db : DB) (f : FileRec) (fb : Option String) : Option BundleRec :=
  match fb with
  | none => none
  | some bt =>
    match get_bundle_by_token db bt with
    | none => none
    | some b =>
      if f.id ∈ (get_bundle_files db b.id).map (fun x => x.id) then some b
      else none

theorem shared_file_eq_notFound (db : DB) (caller : Option Nat) (token : String)
    (fb : Option String) (h : get_file_by_token db token = none) :
    shared_file db caller token fb = .notFound := by
  unfold shared_file
  rw [h]

theorem shared_file_eq_forbidden (db : DB) (caller : Option Nat) (token : String)
    (fb : Option String) (f : FileRec) (h : get_file_by_token db token = some f)
    (hd : ¬ f.is_public ∧ caller ≠ some f.user_id) :
    shared_file db caller token fb = .forbidden := by
  unfold shared_file
  rw [h]
  exact if_pos hd

theorem shared_file_eq_ok (db : DB) (caller : Option Nat) (token : String)
    (fb : Option String) (f : FileRec) (h : get_file_by_token db token = some f)
    (ha : f.is_public ∨ caller = some f.user_id) :
    shared_file db caller token fb = .ok (f, bundle_context db f fb) := by
  unfold shared_file
  rw [h]
  have hd : ¬ (¬ f.is_public = true ∧ caller ≠ some f.user_id) := by
    rcases ha with ha | ha
    · exact fun hc => hc.1 ha
    · exact fun hc => hc.2 ha
  simp only [if_neg hd]
  rfl

theorem download_file_eq_notFound (db : DB) (caller : Option Nat) (token : String)
    (h : get_file_by_token db token = none) :
    download_file db caller token = (.notFound, db) := by
  unfold download_file
  rw [h]

theorem download_file_eq_forbidden (db : DB) (caller : Option Nat) (token : String)
    (f : FileRec) (h : get_file_by_token db token = some f)
    (hd : ¬ f.is_public ∧ caller ≠ some f.user_id) :
    download_file db caller token = (.forbidden, db) := by
  unfold download_file
  rw [h]
  exact if_pos hd

theorem download_file_eq_ok (db : DB) (caller : Option Nat) (token : String)
    (f : FileRec) (h : get_file_by_token db token = some f)
    (ha : f.is_public ∨ caller = some f.user_id) :
    download_file db caller token = (.ok f, increment_download_count db f.id) := by
  unfold download_file
  rw [h]
  have hd : ¬ (¬ f.is_public = true ∧ caller ≠ some f.user_id) := by
    rcases ha with ha | ha
    · exact fun hc => hc.1 ha
    · exact fun hc => hc.2 ha
  simp only [if_neg hd]

theorem shared_bundle_eq_notFound (db : DB) (caller : Option Nat) (token : String)
    (h : get_bundle_by_token db token = none) :
    shared_bundle db caller token = .notFound := by
  unfold shared_bundle
  rw [h]

theorem shared_bundle_eq_forbidden (db : DB) (caller : Option Nat) (token : String)
    (b : BundleRec) (h : get_bundle_by_token db token = some b)
    (hd : ¬ b.is_public ∧ caller ≠ some b.user_id) :
    shared_bundle db caller token = .forbidden := by
  unfold shared_bundle
  rw [h]
  exact if_pos hd

theorem shared_bundle_eq_ok (db : DB) (caller : Option Nat) (token : String)
    (b : BundleRec) (h : get_bundle_by_token db token = some b)
    (ha : b.is_public ∨ caller = some b.user_id) :
    shared_bundle db caller token = .ok (b, get_bundle_files db b.id) := by
  unfold shared_bundle
  rw [h]
  have hd : ¬ (¬ b.is_public = true ∧ caller ≠ some b.user_id) := by
    rcases ha with ha | ha
    · exact fun hc => hc.1 ha
    · exact fun hc => hc.2 ha
  simp only [if_neg hd]

/-- Classical rearrangement used to read the routes' denial condition. -/
theorem or_of_not_not_and {P Q : Prop} (h : ¬ (¬ P ∧ ¬ Q)) : P ∨ Q := by
  tauto

/-! ### Claims -/

/-- C1: for every read-by-token operation (`shared_file` metadata page,
`download_file` content download, `shared_bundle` member enumeration):
the result is NotFound exactly when no entity carries the token; Forbidden
exactly when the entity exists but is private and the caller is not its
authenticated owner; success in every remaining case.  Existence is decided
first, then visibility, then the ownership comparison. -/
theorem C1_read_by_token_access_control (db : DB) (caller : Option Nat)
    (token : String) (fb : Option String) :
    (shared_file db caller token fb = .notFound ↔ get_file_by_token db token = none) ∧
    (shared_file db caller token fb = .forbidden ↔
      (∃ f, get_file_by_token db token = some f ∧ ¬ f.is_public ∧ caller ≠ some f.user_id)) ∧
    ((∃ d, shared_file db caller token fb = .ok d) ↔
      (∃ f, get_file_by_token db token = some f ∧ (f.is_public ∨ caller = some f.user_id))) ∧
    ((download_file db caller token).1 = .notFound ↔ get_file_by_token db token = none) ∧
    ((download_file db caller token).1 = .forbidden ↔
      (∃ f, get_file_by_token db token = some f ∧ ¬ f.is_public ∧ caller ≠ some f.user_id)) ∧
    ((∃ f, (download_file db caller token).1 = .ok f) ↔
      (∃ f, get_file_by_token db token = some f ∧ (f.is_public ∨ caller = some f.user_id))) ∧
    (shared_bundle db caller token = .notFound ↔ get_bundle_by_token db token = none) ∧
    (shared_bundle db caller token = .forbidden ↔
      (∃ b, get_bundle_by_token db token = some b ∧ ¬ b.is_public ∧ caller ≠ some b.user_id)) ∧
    ((∃ d, shared_bundle db caller token = .ok d) ↔
      (∃ b, get_bundle_by_token db token = some b ∧ (b.is_public ∨ caller = some b.user_id))) := by
  refine ⟨?_, ?_, ?_, ?_, ?_, ?_, ?_, ?_, ?_⟩
  · constructor
    · intro hr
      cases hf : get_file_by_token db token with
      | none => rfl
      | some f =>
        by_cases hd : ¬ f.is_public = true ∧ caller ≠ some f.user_id
        · rw [shared_file_eq_forbidden db caller token fb f hf hd] at hr
          simp at hr
        · rw [shared_file_eq_ok db caller token fb f hf (or_of_not_not_and hd)] at hr
          simp at hr
    · exact shared_file_eq_notFound db caller token fb
  · constructor
    · intro hr
      cases hf : get_file_by_token db token with
      | none =>
        rw [shared_file_eq_notFound db caller token fb hf] at hr
        simp at hr
      | some f =>
        by_cases hd : ¬ f.is_public = true ∧ caller ≠ some f.user_id
        · exact ⟨f, rfl, hd⟩
        · rw [shared_file_eq_ok db caller token fb f hf (or_of_not_not_and hd)] at hr
          simp at hr
    · rintro ⟨f, hf, hd⟩
      exact shared_file_eq_forbidden db caller token fb f hf hd
  · constructor
    · rintro ⟨d, hr⟩
      cases hf : get_file_by_token db token with
      | none =>
        rw [shared_file_eq_notFound db caller token fb hf] at hr
        simp at hr
      | some f =>
        by_cases hd : ¬ f.is_public = true ∧ caller ≠ some f.user_id
        · rw [shared_file_eq_forbidden db caller token fb f hf hd] at hr
          simp at hr
        · exact ⟨f, rfl, or_of_not_not_and hd⟩
    · rintro ⟨f, hf, ha⟩
      exact ⟨_, shared_file_eq_ok db caller token fb f hf ha⟩
  · constructor
    · intro hr
      cases hf : get_file_by_token db token with
      | none => rfl
      | some f =>
        by_cases hd : ¬ f.is_public = true ∧ caller ≠ some f.user_id
        · rw [download_file_eq_forbidden db caller token f hf hd] at hr
          simp at hr
        · rw [download_file_eq_ok db caller token f hf (or_of_not_not_and hd)] at hr
          simp at hr
    · intro hf
      rw [download_file_eq_notFound db caller token hf]
  · constructor
    · intro hr
      cases hf : get_file_by_token db token with
      | none =>
        rw [download_file_eq_notFound db caller token hf] at hr
        simp at hr
      | some f =>
        by_cases hd : ¬ f.is_public = true ∧ caller ≠ some f.user_id
        · exact ⟨f, rfl, hd⟩
        · rw [download_file_eq_ok db caller token f hf (or_of_not_not_and hd)] at hr
          simp at hr
    · rintro ⟨f, hf, hd⟩
      rw [download_file_eq_forbidden db caller token f hf hd]
  · constructor
    · rintro ⟨d, hr⟩
      cases hf : get_file_by_token db token with
      | none =>
        rw [download_file_eq_notFound db caller token hf] at hr
        simp at hr
      | some f =>
        by_cases hd : ¬ f.is_public = true ∧ caller ≠ some f.user_id
        · rw [download_file_eq_forbidden db caller token f hf hd] at hr
          simp at hr
        · exact ⟨f, rfl, or_of_not_not_and hd⟩
    · rintro ⟨f, hf, ha⟩
      exact ⟨f, by rw [download_file_eq_ok db caller token f hf ha]⟩
  · constructor
    · intro hr
      cases hf : get_bundle_by_token db token with
      | none => rfl
      | some b =>
        by_cases hd : ¬ b.is_public = true ∧ caller ≠ some b.user_id
        · rw [shared_bundle_eq_forbidden db caller token b hf hd] at hr
          simp at hr
        · rw [shared_bundle_eq_ok db caller token b hf (or_of_not_not_and hd)] at hr
          simp at hr
    · exact shared_bundle_eq_notFound db caller token
  · constructor
    · intro hr
      cases hf : get_bundle_by_token db token with
      | none =>
        rw [shared_bundle_eq_notFound db caller token hf] at hr
        simp at hr
      | some b =>
        by_cases hd : ¬ b.is_public = true ∧ caller ≠ some b.user_id
        · exact ⟨b, rfl, hd⟩
        · rw [shared_bundle_eq_ok db caller token b hf (or_of_not_not_and hd)] at hr
          simp at hr
    · rintro ⟨b, hf, hd⟩
      exact shared_bundle_eq_forbidden db caller token b hf hd
  · constructor
    · rintro ⟨d, hr⟩
      cases hf : get_bundle_by_token db token with
      | none =>
        rw [shared_bundle_eq_notFound db caller token hf] at hr
        simp at hr
      | some b =>
        by_cases hd : ¬ b.is_public = true ∧ caller ≠ some b.user_id
        · rw [shared_bundle_eq_forbidden db caller token b hf hd] at hr
          simp at hr
        · exact ⟨b, rfl, or_of_not_not_and hd⟩
    · rintro ⟨b, hf, ha⟩
      exact ⟨_, shared_bundle_eq_ok db caller token b hf ha⟩

/-! ### Concrete scenario states (all reachable by construction) -/

/-- User 1 uploads `a.txt`: file id 1, storage name `u1_a.txt`, token `tok1`. -/
def sysUpload : Sys :=
  step Sys.empty (Op.uploadOp (some 1) "a.txt" true "tx" "u1_a.txt" "tok1" 5 true)

/-- Then user 2 creates a bundle, submitting user 1's file id 1 directly.
The bundle row is inserted; no membership row is (see
`create_bundle_route`). -/
def sysCrossBundle : Sys :=
  step sysUpload (Op.createBundleOp (some 2) "b" "btx" [1] true "btok")

/-- User 2 then edits their bundle, again submitting user 1's file id 1 —
the membership insertion `/create-bundle` never performs happens here. -/
def sysCrossEdit : Sys :=
  step sysCrossBundle (Op.editBundleOp (some 2) 1 "b" "btx" [1] true)

/-- Alternatively, user 1 creates their own (member-less) bundle. -/
def sysOwnBundle : Sys :=
  step sysUpload (Op.createBundleOp (some 1) "b" "btx" [1] true "btok")

/-- … and edits it to contain their file 1. -/
def sysOwnEdit : Sys :=
  step sysOwnBundle (Op.editBundleOp (some 1) 1 "b" "btx" [1] true)

/-- C8: in every reachable state the share-token values are pairwise
distinct across all rows of the files table, and likewise across all rows
of the bundles table (the UNIQUE constraints reject any insert that would
duplicate a token, and no operation ever writes the token column of an
existing row). -/
theorem C8_share_tokens_pairwise_distinct (sys : Sys) (h : Reachable sys) :
    (sys.db.files.map (fun f => f.share_token)).Nodup ∧
    (sys.db.bundles.map (fun b => b.share_token)).Nodup :=
  ⟨(reachable_dbinv h).1, (reachable_dbinv h).2.1⟩

theorem C8_share_tokens_pairwise_distinct_witness :
    (sysCrossBundle.db.files.map (fun f => f.share_token)).Nodup ∧
    (sysCrossBundle.db.bundles.map (fun b => b.share_token)).Nodup :=
  C8_share_tokens_pairwise_distinct sysCrossBundle
    (Reachable.next _ (Reachable.next _ Reachable.init))

/-- C2 (the code violates the claimed invariant): no route ever
ownership-checks a submitted file id.  `/create-bundle` inserts the bundle
row but — `create_bundle` having reported id 0 — takes its
"Error creating bundle" branch and inserts no membership rows at all, so
its member loop (and any verification it might have done) is dead code;
membership comes from `/edit_bundle`, which inserts every submitted file id
with no ownership check (`verify_file_ownership`, which returns false
here, is never called) and also accepts an empty selection.  User 2
creates a bundle and edits it to contain user 1's file id 1: the reachable
result state holds a membership row associating user 2's bundle with
user 1's file. -/
theorem C2_bundle_ownership_not_enforced :
    Reachable sysCrossEdit ∧
    (create_bundle_route sysUpload.db (some 2) "b" "btx" [1] true "btok").2.bundle_files
      = [] ∧
    (edit_bundle sysCrossBundle.db (some 2) 1 "b" "btx" [1] true).1 = .ok ∧
    verify_file_ownership sysCrossBundle.db 1 2 = false ∧
    sysCrossEdit.db.bundle_files.map (fun bf => (bf.bundle_id, bf.file_id)) = [(1, 1)] ∧
    sysCrossEdit.db.bundles.map (fun b => (b.id, b.user_id)) = [(1, 2)] ∧
    sysCrossEdit.db.files.map (fun f => (f.id, f.user_id)) = [(1, 1)] ∧
    (edit_bundle sysCrossEdit.db (some 2) 1 "b2" "btx2" [] true).1 = .ok := by
  refine ⟨Reachable.next _ (Reachable.next _ (Reachable.next _ Reachable.init)),
    ?_, ?_, ?_, ?_, ?_, ?_, ?_⟩
  all_goals decide

/-- C3 counterexample: user 1 uploads file 1, puts it into their own
bundle (create, then edit — the path that actually inserts membership),
then deletes the file.  The delete succeeds and the file row disappears,
but the bundle-membership row referencing file id 1 is still present —
deletion does NOT remove bundle-membership rows (no cascade is active and
`DatabaseWrapper.delete_file` touches only the `files` table). -/
theorem C3_counterexample_membership_row_persists :
    (delete_file sysOwnEdit (some 1) 1).1 = .ok ∧
    (delete_file sysOwnEdit (some 1) 1).2.db.files = [] ∧
    (delete_file sysOwnEdit (some 1) 1).2.db.bundle_files
      = [{ id := 1, bundle_id := 1, file_id := 1 }] := by
  refine ⟨?_, ?_, ?_⟩ <;> decide

/-- The file row created by the upload in `sysUpload`. -/
def fileRec1 : FileRec :=
  { id := 1, filename := "u1_a.txt", original_filename := "a.txt", user_id := 1,
    is_public := true, share_token := "tok1", file_size := 5, file_type := "txt",
    download_count := 0, transaction_number := "tx" }

/-- C3 amended: deleting a file as its owner removes the file's metadata row
and its blob, and any subsequent access by its old share token fails with
NotFound; the `bundle_files` table, however, is left entirely unchanged —
membership rows referencing the deleted file persist, and only stop
appearing in bundle views because `get_bundle_files` joins against `files`. -/
theorem C3_delete_file_effects (sys : Sys) (uid fid : Nat) (fd : FileRec)
    (hf : get_file_by_id sys.db fid = some fd)
    (hown : fd.user_id = uid)
    (htok : (sys.db.files.map (fun f => f.share_token)).Nodup) :
    (delete_file sys (some uid) fid).1 = .ok ∧
    get_file_by_id (delete_file sys (some uid) fid).2.db fid = none ∧
    fd.filename ∉ (delete_file sys (some uid) fid).2.blobs ∧
    get_file_by_token (delete_file sys (some uid) fid).2.db fd.share_token = none ∧
    (delete_file sys (some uid) fid).2.db.bundle_files = sys.db.bundle_files ∧
    (∀ caller fb,
      shared_file (delete_file sys (some uid) fid).2.db caller fd.share_token fb
        = .notFound) ∧
    (∀ bid g, g ∈ get_bundle_files (delete_file sys (some uid) fid).2.db bid →
      g.id ≠ fid) := by
  have hcond : ¬ (fd.user_id ≠ uid) := fun h => h hown
  have hroute : delete_file sys (some uid) fid =
      (.ok, { db := db_delete_file sys.db fid,
              blobs := sys.blobs.filter (fun n => ¬ n = fd.filename) }) := by
    unfold delete_file
    rw [hf]
    simp only [if_neg hcond]
  have hfd_mem : fd ∈ sys.db.files := List.mem_of_find?_eq_some hf
  have hfd_id : fd.id = fid := by simpa using List.find?_some hf
  have htok_none :
      get_file_by_token (db_delete_file sys.db fid) fd.share_token = none := by
    unfold get_file_by_token db_delete_file
    refine List.find?_eq_none.2 (fun x hx => ?_)
    rcases List.mem_filter.1 hx with ⟨hxl, hxp⟩
    intro hbeq
    have hxtok : x.share_token = fd.share_token := by simpa using hbeq
    have hxfd : x = fd := List.inj_on_of_nodup_map htok hxl hfd_mem hxtok
    rw [hxfd, hfd_id] at hxp
    simp at hxp
  rw [hroute]
  refine ⟨rfl, ?_, ?_, htok_none, rfl, ?_, ?_⟩
  · unfold get_file_by_id db_delete_file
    refine List.find?_eq_none.2 (fun x hx => ?_)
    rcases List.mem_filter.1 hx with ⟨-, hxp⟩
    simp only [decide_not, Bool.not_eq_true', decide_eq_false_iff_not] at hxp
    simpa using hxp
  · intro hmem
    exact absurd (List.of_mem_filter hmem) (by simp)
  · intro caller fb
    exact shared_file_eq_notFound _ caller _ fb htok_none
  · intro bid g hg
    unfold get_bundle_files at hg
    rcases List.mem_filterMap.1 hg with ⟨bf, -, hfind⟩
    have hgl : g ∈ (db_delete_file sys.db fid).files := List.mem_of_find?_eq_some hfind
    rcases List.mem_filter.1 hgl with ⟨-, hgp⟩
    simpa using hgp

theorem C3_delete_file_effects_witness :
    (delete_file sysOwnEdit (some 1) 1).1 = .ok ∧
    get_file_by_id (delete_file sysOwnEdit (some 1) 1).2.db 1 = none ∧
    fileRec1.filename ∉ (delete_file sysOwnEdit (some 1) 1).2.blobs ∧
    get_file_by_token (delete_file sysOwnEdit (some 1) 1).2.db
      fileRec1.share_token = none ∧
    (delete_file sysOwnEdit (some 1) 1).2.db.bundle_files
      = sysOwnEdit.db.bundle_files ∧
    (∀ caller fb, shared_file (delete_file sysOwnEdit (some 1) 1).2.db caller
      fileRec1.share_token fb = .notFound) ∧
    (∀ bid g, g ∈ get_bundle_files (delete_file sysOwnEdit (some 1) 1).2.db bid →
      g.id ≠ 1) :=
  C3_delete_file_effects sysOwnEdit 1 1 fileRec1 (by decide) (by decide) (by decide)

/-- C4 counterexample: an anonymous delete of an existing file is answered
with Flask-Login's redirect to the login page, not with Forbidden; the
state (the row and its download counter included) is unchanged. -/
theorem C4_counterexample_anonymous_gets_redirect :
    (delete_file sysUpload none 1).1 = .loginRedirect ∧
    (delete_file sysUpload none 1).1 ≠ .forbidden ∧
    (delete_file sysUpload none 1).2 = sysUpload := by
  refine ⟨rfl, ?_, rfl⟩
  decide

/-- C4 amended: every mutation route (toggle/delete/rename a file,
toggle/edit/delete a bundle) authorizes exactly the authenticated owner.
An authenticated non-owner and a nonexistent entity receive Forbidden with
the state unchanged, with no distinction by visibility (no conjunct below
conditions on `is_public`); an anonymous caller is redirected to the login
page — not Forbidden — again with the state unchanged; for the
authenticated owner authorization passes: the result is never Forbidden nor
a login redirect. -/
theorem C4_mutations_require_owner (db : DB) (sys : Sys) (uid : Nat) :
    (∀ fid, toggle_public db none fid = (.loginRedirect, db)) ∧
    (∀ fid, delete_file sys none fid = (.loginRedirect, sys)) ∧
    (∀ fid n, rename_file db none fid n = (.loginRedirect, db)) ∧
    (∀ bid, toggle_bundle_public db none bid = (.loginRedirect, db)) ∧
    (∀ bid n t sel p, edit_bundle db none bid n t sel p = (.loginRedirect, db)) ∧
    (∀ bid, delete_bundle db none bid = (.loginRedirect, db)) ∧
    (∀ fid, get_file_by_id db fid = none →
      toggle_public db (some uid) fid = (.forbidden, db)) ∧
    (∀ fid fd, get_file_by_id db fid = some fd → fd.user_id ≠ uid →
      toggle_public db (some uid) fid = (.forbidden, db)) ∧
    (∀ fid, get_file_by_id sys.db fid = none →
      delete_file sys (some uid) fid = (.forbidden, sys)) ∧
    (∀ fid fd, get_file_by_id sys.db fid = some fd → fd.user_id ≠ uid →
      delete_file sys (some uid) fid = (.forbidden, sys)) ∧
    (∀ fid n, get_file_by_id db fid = none →
      rename_file db (some uid) fid n = (.forbidden, db)) ∧
    (∀ fid n fd, get_file_by_id db fid = some fd → fd.user_id ≠ uid →
      rename_file db (some uid) fid n = (.forbidden, db)) ∧
    (∀ bid, get_bundle_by_id db bid = none →
      toggle_bundle_public db (some uid) bid = (.forbidden, db)) ∧
    (∀ bid bd, get_bundle_by_id db bid = some bd → bd.user_id ≠ uid →
      toggle_bundle_public db (some uid) bid = (.forbidden, db)) ∧
    (∀ bid n t sel p, get_bundle_by_id db bid = none →
      edit_bundle db (some uid) bid n t sel p = (.forbidden, db)) ∧
    (∀ bid n t sel p bd, get_bundle_by_id db bid = some bd → bd.user_id ≠ uid →
      edit_bundle db (some uid) bid n t sel p = (.forbidden, db)) ∧
    (∀ bid, get_bundle_by_id db bid = none →
      delete_bundle db (some uid) bid = (.forbidden, db)) ∧
    (∀ bid bd, get_bundle_by_id db bid = some bd → bd.user_id ≠ uid →
      delete_bundle db (some uid) bid = (.forbidden, db)) ∧
    (∀ fid fd, get_file_by_id db fid = some fd → fd.user_id = uid →
      (toggle_public db (some uid) fid).1 = .ok) ∧
    (∀ fid fd, get_file_by_id sys.db fid = some fd → fd.user_id = uid →
      (delete_file sys (some uid) fid).1 = .ok) ∧
    (∀ fid n fd, get_file_by_id db fid = some fd → fd.user_id = uid →
      (rename_file db (some uid) fid n).1 ≠ .forbidden ∧
      (rename_file db (some uid) fid n).1 ≠ .loginRedirect) ∧
    (∀ bid bd, get_bundle_by_id db bid = some bd → bd.user_id = uid →
      (toggle_bundle_public db (some uid) bid).1 = .ok) ∧
    (∀ bid n t sel p bd, get_bundle_by_id db bid = some bd → bd.user_id = uid →
      (edit_bundle db (some uid) bid n t sel p).1 ≠ .forbidden ∧
      (edit_bundle db (some uid) bid n t sel p).1 ≠ .loginRedirect) ∧
    (∀ bid bd, get_bundle_by_id db bid = some bd → bd.user_id = uid →
      (delete_bundle db (some uid) bid).1 = .ok) := by
  refine ⟨fun fid => rfl, fun fid => rfl, fun fid n => rfl, fun bid => rfl,
    fun bid n t sel p => rfl, fun bid => rfl,
    ?_, ?_, ?_, ?_, ?_, ?_, ?_, ?_, ?_, ?_, ?_, ?_, ?_, ?_, ?_, ?_, ?_, ?_⟩
  · intro fid h
    unfold toggle_public
    rw [h]
  · intro fid fd h hne
    unfold toggle_public
    rw [h]
    exact if_pos hne
  · intro fid h
    unfold delete_file
    rw [h]
  · intro fid fd h hne
    unfold delete_file
    rw [h]
    exact if_pos hne
  · intro fid n h
    unfold rename_file
    rw [h]
  · intro fid n fd h hne
    unfold rename_file
    rw [h]
    exact if_pos hne
  · intro bid h
    unfold toggle_bundle_public
    rw [h]
  · intro bid bd h hne
    unfold toggle_bundle_public
    rw [h]
    exact if_pos hne
  · intro bid n t sel p h
    unfold edit_bundle
    rw [h]
  · intro bid n t sel p bd h hne
    unfold edit_bundle
    rw [h]
    exact if_pos hne
  · intro bid h
    unfold delete_bundle
    rw [h]
  · intro bid bd h hne
    unfold delete_bundle
    rw [h]
    exact if_pos hne
  · intro fid fd h hown
    unfold toggle_public
    rw [h]
    simp only [if_neg (fun hc : fd.user_id ≠ uid => hc hown)]
  · intro fid fd h hown
    unfold delete_file
    rw [h]
    simp only [if_neg (fun hc : fd.user_id ≠ uid => hc hown)]
  · intro fid n fd h hown
    unfold rename_file
    rw [h]
    simp only [if_neg (fun hc : fd.user_id ≠ uid => hc hown)]
    split <;> simp
  · intro bid bd h hown
    unfold toggle_bundle_public
    rw [h]
    simp only [if_neg (fun hc : bd.user_id ≠ uid => hc hown)]
  · intro bid n t sel p bd h hown
    unfold edit_bundle
    rw [h]
    simp only [if_neg (fun hc : bd.user_id ≠ uid => hc hown)]
    split <;> simp
  · intro bid bd h hown
    unfold delete_bundle
    rw [h]
    simp only [if_neg (fun hc : bd.user_id ≠ uid => hc hown)]

theorem C4_mutations_require_owner_witness :
    delete_file sysUpload (some 2) 1 = (.forbidden, sysUpload) ∧
    toggle_public sysUpload.db (some 2) 1 = (.forbidden, sysUpload.db) ∧
    (toggle_public sysUpload.db (some 1) 1).1 = .ok ∧
    toggle_public sysUpload.db (some 2) 99 = (.forbidden, sysUpload.db) := by
  obtain ⟨-, -, -, -, -, -, n1, o1, -, o2, -, -, -, -, -, -, -, -, -, -, -, -, -, -⟩ :=
    C4_mutations_require_owner sysUpload.db sysUpload 2
  obtain ⟨-, -, -, -, -, -, -, -, -, -, -, -, -, -, -, -, -, -, p1, -, -, -, -, -⟩ :=
    C4_mutations_require_owner sysUpload.db sysUpload 1
  exact ⟨o2 1 fileRec1 (by decide) (by decide), o1 1 fileRec1 (by decide) (by decide),
    p1 1 fileRec1 (by decide) (by decide), n1 99 (by decide)⟩

/-- C7 counterexample: an upload whose metadata INSERT fails (here: the
share-token UNIQUE constraint) after `file.save` has completed leaves the
already-written blob in place — there is no rollback — while the database
is unchanged. -/
theorem C7_counterexample_no_blob_rollback :
    (upload sysUpload (some 1) "b.pdf" true "t2" "u2_b.pdf" "tok1" 9 true).1
      = .dbError ∧
    "u2_b.pdf" ∈ (upload sysUpload (some 1) "b.pdf" true "t2" "u2_b.pdf"
      "tok1" 9 true).2.blobs ∧
    (upload sysUpload (some 1) "b.pdf" true "t2" "u2_b.pdf" "tok1" 9 true).2.db
      = sysUpload.db := by
  refine ⟨?_, ?_, ?_⟩ <;> decide

/-- The metadata row a successful upload appends (`db.create_file` with the
route's arguments). -/
def uploadedRow (db : DB) (u o : String) (uid : Nat) (p : Bool) (tok : String)
    (fs : Nat) (t : String) : FileRec :=
  { id := db.nextFileId, filename := u, original_filename := o, user_id := uid,
    is_public := p, share_token := tok, file_size := fs,
    file_type := file_type_of o, download_count := 0, transaction_number := t }

/-- C7 amended: on upload the blob is written before the metadata row; a
blob write failure leaves the state untouched (so it produces no metadata
row), and a successful upload stores a row whose storage name has its blob
present — no execution leaves a metadata row without a blob.  But when
persisting the metadata row fails, the already-written blob is NOT rolled
back: it stays in the blob store while the database is unchanged. -/
theorem C7_upload_blob_first_no_rollback (sys : Sys) (uid : Nat)
    (o t u tok : String) (p : Bool) (fs : Nat)
    (ho : ¬ o = "") (ht : ¬ t = "") (hall : allowed_file o = true) :
    (upload sys (some uid) o p t u tok fs false = (.ioError, sys)) ∧
    (sys.db.files.any (fun f => f.share_token == tok) = true →
      upload sys (some uid) o p t u tok fs true
        = (.dbError, { sys with blobs := u :: sys.blobs })) ∧
    (sys.db.files.any (fun f => f.share_token == tok) = false →
      upload sys (some uid) o p t u tok fs true
        = (.ok, { db := { sys.db with
                          files := sys.db.files ++ [uploadedRow sys.db u o uid p tok fs t],
                          nextFileId := sys.db.nextFileId + 1 },
                  blobs := u :: sys.blobs }) ∧
      (uploadedRow sys.db u o uid p tok fs t).filename = u ∧
      u ∈ u :: sys.blobs) := by
  refine ⟨?_, ?_, ?_⟩
  · unfold upload
    dsimp only
    rw [if_neg ho, if_neg ht, if_pos hall]
    simp
  · intro hany
    unfold upload create_file
    dsimp only
    rw [if_neg ho, if_neg ht, if_pos hall]
    simp [hany]
  · intro hany
    unfold upload create_file uploadedRow
    dsimp only
    rw [if_neg ho, if_neg ht, if_pos hall]
    simp [hany]

theorem C7_upload_blob_first_no_rollback_witness :
    (upload sysUpload (some 1) "b.pdf" true "t2" "u2_b.pdf" "tok9" 9 false
      = (.ioError, sysUpload)) ∧
    (upload sysUpload (some 1) "b.pdf" true "t2" "u2_b.pdf" "tok1" 9 true
      = (.dbError, { sysUpload with blobs := "u2_b.pdf" :: sysUpload.blobs })) ∧
    (upload sysUpload (some 1) "b.pdf" true "t2" "u2_b.pdf" "tok9" 9 true).1
      = .ok := by
  obtain ⟨w1, w2, w3⟩ :=
    C7_upload_blob_first_no_rollback sysUpload 1 "b.pdf" "t2" "u2_b.pdf" "tok9"
      true 9 (by decide) (by decide) (by decide)
  obtain ⟨-, w4, -⟩ :=
    C7_upload_blob_first_no_rollback sysUpload 1 "b.pdf" "t2" "u2_b.pdf" "tok1"
      true 9 (by decide) (by decide) (by decide)
  exact ⟨w1, w4 (by decide), by rw [(w3 (by decide)).1]⟩


/-- After `remove_all_files_from_bundle` no membership row of that bundle
remains. -/
theorem remove_all_filter_nil (db : DB) (bid : Nat) :
    (remove_all_files_from_bundle db bid).bundle_files.filter
      (fun bf => bf.bundle_id == bid) = [] := by
  unfold remove_all_files_from_bundle
  refine List.filter_eq_nil_iff.2 (fun a ha => ?_)
  have hp := List.of_mem_filter ha
  simp only [decide_not, Bool.not_eq_true', decide_eq_false_iff_not] at hp
  simpa using hp

/-- C10: an owner's bundle edit that passes validation (name and label
non-empty) succeeds and fully replaces the membership: afterwards the
membership rows of that bundle list exactly the submitted file ids, in
order — previous members persist only if re-submitted, new ids become
members. -/
theorem C10_edit_bundle_full_replace (db : DB) (uid bid : Nat)
    (bn txn : String) (sel : List Nat) (p : Bool) (bd : BundleRec)
    (hb : get_bundle_by_id db bid = some bd) (hown : bd.user_id = uid)
    (hbn : ¬ bn = "") (htxn : ¬ txn = "") :
    (edit_bundle db (some uid) bid bn txn sel p).1 = .ok ∧
    (((edit_bundle db (some uid) bid bn txn sel p).2.bundle_files.filter
        (fun bf => bf.bundle_id == bid)).map (fun bf => bf.file_id)) = sel := by
  have hroute : edit_bundle db (some uid) bid bn txn sel p =
      (.ok, sel.foldl (fun d fid => add_file_to_bundle d bid fid)
        (remove_all_files_from_bundle (update_bundle_info db bid bn txn p) bid)) := by
    unfold edit_bundle
    rw [hb]
    simp only [if_neg (fun hc : bd.user_id ≠ uid => hc hown),
      if_neg (fun hc : bn = "" ∨ txn = "" => hc.elim hbn htxn)]
  rw [hroute]
  refine ⟨rfl, ?_⟩
  rw [foldl_add_bundle_files, remove_all_filter_nil]
  simp

/-- Concrete instance of the spec's example: bundle 1 has members
{1, 2, 3}; the owner edits the selection to {2, 4}. -/
def c10db : DB :=
  { files := [],
    bundles := [{ id := 1, bundle_name := "b", transaction_number := "t",
                  user_id := 1, is_public := true, share_token := "bt",
                  download_count := 0 }],
    bundle_files := [{ id := 1, bundle_id := 1, file_id := 1 },
                     { id := 2, bundle_id := 1, file_id := 2 },
                     { id := 3, bundle_id := 1, file_id := 3 }],
    nextFileId := 5, nextBundleId := 2, nextBundleFileId := 4 }

theorem C10_edit_bundle_full_replace_witness :
    (edit_bundle c10db (some 1) 1 "b" "t" [2, 4] true).1 = .ok ∧
    (((edit_bundle c10db (some 1) 1 "b" "t" [2, 4] true).2.bundle_files.filter
        (fun bf => bf.bundle_id == 1)).map (fun bf => bf.file_id)) = [2, 4] :=
  C10_edit_bundle_full_replace c10db 1 1 "b" "t" [2, 4] true
    { id := 1, bundle_name := "b", transaction_number := "t", user_id := 1,
      is_public := true, share_token := "bt", download_count := 0 }
    (by decide) (by decide) (by decide) (by decide)

/-- C9: once the file resolves and is readable, the bundle context attached
by `shared_file` is decided solely by resolving the `from_bundle` token and
checking the file's id against that bundle's membership: a resolvable
bundle containing the file is attached; a mismatched or unresolvable
reference silently yields no bundle context while the read still succeeds.
No hypothesis below constrains the bundle's visibility flag or the caller's
relation to the bundle's owner — a private bundle's data is attached for
any caller who can read the file and supplies the bundle's token. -/
theorem C9_bundle_context_membership_only (db : DB) (caller : Option Nat)
    (token bt : String) (f : FileRec)
    (hf : get_file_by_token db token = some f)
    (ha : f.is_public ∨ caller = some f.user_id) :
    (∀ b, get_bundle_by_token db bt = some b →
      f.id ∈ (get_bundle_files db b.id).map (fun x => x.id) →
      shared_file db caller token (some bt) = .ok (f, some b)) ∧
    (∀ b, get_bundle_by_token db bt = some b →
      f.id ∉ (get_bundle_files db b.id).map (fun x => x.id) →
      shared_file db caller token (some bt) = .ok (f, none)) ∧
    (get_bundle_by_token db bt = none →
      shared_file db caller token (some bt) = .ok (f, none)) := by
  refine ⟨?_, ?_, ?_⟩
  · intro b hb hm
    rw [shared_file_eq_ok db caller token (some bt) f hf ha]
    unfold bundle_context
    dsimp only
    rw [hb]
    simp [hm]
  · intro b hb hm
    rw [shared_file_eq_ok db caller token (some bt) f hf ha]
    unfold bundle_context
    dsimp only
    rw [hb]
    simp [hm]
  · intro hb
    rw [shared_file_eq_ok db caller token (some bt) f hf ha]
    unfold bundle_context
    dsimp only
    rw [hb]

/-- The private bundle of user 9 that contains file 1. -/
def c9bundle1 : BundleRec :=
  { id := 1, bundle_name := "b", transaction_number := "t", user_id := 9,
    is_public := false, share_token := "bt", download_count := 0 }

/-- A second private bundle of user 9 that does not contain file 1. -/
def c9bundle2 : BundleRec :=
  { id := 2, bundle_name := "b2", transaction_number := "t2", user_id := 9,
    is_public := false, share_token := "bt2", download_count := 0 }

/-- A database where the public file 1 belongs to the private bundle 1 of
user 9, and bundle 2 (same owner) does not contain it. -/
def c9db : DB :=
  { files := [fileRec1],
    bundles := [c9bundle1, c9bundle2],
    bundle_files := [{ id := 1, bundle_id := 1, file_id := 1 }],
    nextFileId := 2, nextBundleId := 3, nextBundleFileId := 2 }

theorem C9_bundle_context_membership_only_witness :
    shared_file c9db none "tok1" (some "bt") = .ok (fileRec1, some c9bundle1) ∧
    c9bundle1.is_public = false ∧
    shared_file c9db none "tok1" (some "bt2") = .ok (fileRec1, none) ∧
    shared_file c9db none "tok1" (some "nope") = .ok (fileRec1, none) := by
  refine ⟨?_, rfl, ?_, ?_⟩
  · exact (C9_bundle_context_membership_only c9db none "tok1" "bt" fileRec1
      (by decide) (by decide)).1 _ (by decide) (by decide)
  · exact (C9_bundle_context_membership_only c9db none "tok1" "bt2" fileRec1
      (by decide) (by decide)).2.1 c9bundle2 (by decide) (by decide)
  · exact (C9_bundle_context_membership_only c9db none "tok1" "nope" fileRec1
      (by decide) (by decide)).2.2 (by decide)

/-- A successful `find?` splits its list around the found element, every
earlier element failing the predicate. -/
theorem find?_decomp {α : Type} (p : α → Bool) :
    ∀ {l : List α} {a : α}, l.find? p = some a →
      ∃ l1 l2, l = l1 ++ a :: l2 ∧ ∀ x ∈ l1, ¬ p x = true := by
  intro l
  induction l with
  | nil => intro a h; simp at h
  | cons x t ih =>
    intro a h
    by_cases hx : p x = true
    · rw [List.find?_cons_of_pos _ hx] at h
      cases h
      exact ⟨[], t, rfl, by simp⟩
    · rw [List.find?_cons_of_neg _ hx] at h
      obtain ⟨l1, l2, rfl, hl1⟩ := ih h
      refine ⟨x :: l1, l2, rfl, ?_⟩
      intro y hy
      rcases List.mem_cons.1 hy with rfl | hy
      · exact hx
      · exact hl1 y hy

/-- When a projected column is duplicate-free, the rows around a split
element all differ from it on that column. -/
theorem nodup_split {α β : Type} (k : α → β) (l1 l2 : List α) (a : α)
    (h : ((l1 ++ a :: l2).map k).Nodup) :
    (∀ x ∈ l1, ¬ k x = k a) ∧ (∀ x ∈ l2, ¬ k x = k a) := by
  rw [List.map_append, List.nodup_append] at h
  obtain ⟨h1, h2, hdisj⟩ := h
  rw [List.map_cons, List.nodup_cons] at h2
  constructor
  · intro x hx heq
    exact hdisj (List.mem_map_of_mem _ hx) (by rw [heq]; exact List.mem_cons_self _ _)
  · intro x hx heq
    exact h2.1 (by rw [← heq]; exact List.mem_map_of_mem _ hx)

/-- Specialization to the file id column. -/
theorem nodup_ids_split (l1 l2 : List FileRec) (f : FileRec)
    (h : ((l1 ++ f :: l2).map (fun x => x.id)).Nodup) :
    (∀ x ∈ l1, ¬ x.id = f.id) ∧ (∀ x ∈ l2, ¬ x.id = f.id) :=
  nodup_split (fun x => x.id) l1 l2 f h

/-- A map that fixes every element of a list is the identity on it. -/
theorem map_eq_self_of {α : Type} (l : List α) (g : α → α)
    (h : ∀ x ∈ l, g x = x) : l.map g = l := by
  induction l with
  | nil => rfl
  | cons a t ih =>
    rw [List.map_cons, h a (List.mem_cons_self a t),
      ih (fun x hx => h x (List.mem_cons_of_mem a hx))]

/-- C6: a successful `download_file` increments the resolved file's
`download_count` by exactly one and changes nothing else (every other row
and every other table is untouched); a NotFound or Forbidden outcome
returns the database exactly as it was; and `view_file_content` — inline
viewing — never changes the state, in particular it performs no increment
(for non-displayable types it merely redirects to the download route). -/
theorem C6_download_count_accounting (db : DB) (caller : Option Nat)
    (token : String) (hids : (db.files.map (fun f => f.id)).Nodup) :
    (get_file_by_token db token = none →
      download_file db caller token = (.notFound, db)) ∧
    (∀ f, get_file_by_token db token = some f →
      ¬ f.is_public ∧ caller ≠ some f.user_id →
      download_file db caller token = (.forbidden, db)) ∧
    (∀ f, get_file_by_token db token = some f →
      (f.is_public ∨ caller = some f.user_id) →
      ∃ l1 l2, db.files = l1 ++ f :: l2 ∧
        (download_file db caller token).1 = .ok f ∧
        (download_file db caller token).2.files
          = l1 ++ { f with download_count := f.download_count + 1 } :: l2 ∧
        (download_file db caller token).2.bundles = db.bundles ∧
        (download_file db caller token).2.bundle_files = db.bundle_files) ∧
    (∀ sys caller2 token2, (view_file_content sys caller2 token2).2 = sys) := by
  refine ⟨?_, ?_, ?_, ?_⟩
  · exact download_file_eq_notFound db caller token
  · exact fun f hf hd => download_file_eq_forbidden db caller token f hf hd
  · intro f hf ha
    have hf' : db.files.find? (fun x => x.share_token == token) = some f := hf
    obtain ⟨l1, l2, hsplit, hl1⟩ := find?_decomp _ hf'
    rw [download_file_eq_ok db caller token f hf ha]
    refine ⟨l1, l2, hsplit, rfl, ?_, rfl, rfl⟩
    have hids' : ((l1 ++ f :: l2).map (fun x => x.id)).Nodup := by
      rw [← hsplit]; exact hids
    obtain ⟨hA, hB⟩ := nodup_ids_split l1 l2 f hids'
    unfold increment_download_count
    dsimp only
    rw [hsplit, List.map_append, List.map_cons,
      map_eq_self_of l1 _ (fun x hx => if_neg (hA x hx)),
      map_eq_self_of l2 _ (fun x hx => if_neg (hB x hx)),
      if_pos rfl]
  · intro sys caller2 token2
    unfold view_file_content
    split
    · rfl
    · split
      · rfl
      · split
        · split <;> rfl
        · split <;> rfl

/-- The file row of `sysUpload` after its owner toggles it private. -/
def fileRec1p : FileRec := { fileRec1 with is_public := false }

/-- The state after the owner toggles file 1 private. -/
def sysPrivate : Sys := step sysUpload (Op.togglePublicOp (some 1) 1)

theorem C6_download_count_accounting_witness :
    download_file sysUpload.db none "nope" = (.notFound, sysUpload.db) ∧
    download_file sysPrivate.db none "tok1" = (.forbidden, sysPrivate.db) ∧
    (download_file sysUpload.db none "tok1").1 = .ok fileRec1 ∧
    (∀ caller2 token2, (view_file_content sysUpload caller2 token2).2 = sysUpload) := by
  obtain ⟨-, -, w3, w4⟩ :=
    C6_download_count_accounting sysUpload.db none "tok1" (by decide)
  obtain ⟨-, -, -, hok, -, -, -⟩ := w3 fileRec1 (by decide) (by decide)
  obtain ⟨w1, -, -, -⟩ :=
    C6_download_count_accounting sysUpload.db none "nope" (by decide)
  obtain ⟨-, w2, -, -⟩ :=
    C6_download_count_accounting sysPrivate.db none "tok1" (by decide)
  exact ⟨w1 (by decide), w2 fileRec1p (by decide) (by decide), hok,
    fun caller2 token2 => w4 sysUpload caller2 token2⟩

/-! ### Toggle-route helpers (claim C5) -/

/-- Erase the visibility flag: two rows agree under `forgetPub` exactly when
every field except `is_public` agrees. -/
def forgetPub (f : FileRec) : FileRec := { f with is_public := false }

/-- Bundle version of `forgetPub`. -/
def forgetPubB (b : BundleRec) : BundleRec := { b with is_public := false }

theorem toggle_public_eq_ok (db : DB) (uid fid : Nat) (fd : FileRec)
    (hf : get_file_by_id db fid = some fd) (hown : fd.user_id = uid) :
    toggle_public db (some uid) fid = (.ok, update_file_privacy db fid (!fd.is_public)) := by
  unfold toggle_public
  rw [hf]
  simp only [if_neg (fun hc : fd.user_id ≠ uid => hc hown)]

theorem toggle_bundle_public_eq_ok (db : DB) (uid bid : Nat) (bd : BundleRec)
    (hb : get_bundle_by_id db bid = some bd) (hown : bd.user_id = uid) :
    toggle_bundle_public db (some uid) bid
      = (.ok, update_bundle_privacy db bid (!bd.is_public)) := by
  unfold toggle_bundle_public
  rw [hb]
  simp only [if_neg (fun hc : bd.user_id ≠ uid => hc hown)]

theorem get_file_by_id_update_privacy (db : DB) (fid : Nat) (p : Bool) :
    get_file_by_id (update_file_privacy db fid p) fid
      = (get_file_by_id db fid).map (fun f => { f with is_public := p }) := by
  unfold get_file_by_id update_file_privacy
  dsimp only
  rw [List.find?_map]
  have hcomp : ((fun f : FileRec => f.id == fid) ∘
      (fun f => if f.id = fid then { f with is_public := p } else f))
      = (fun f : FileRec => f.id == fid) := by
    funext x
    by_cases h : x.id = fid <;> simp [h]
  rw [hcomp]
  cases hf2 : db.files.find? (fun f => f.id == fid) with
  | none => rfl
  | some fd =>
    have hfd : fd.id = fid := by simpa using List.find?_some hf2
    simp [hfd]

theorem get_bundle_by_id_update_privacy (db : DB) (bid : Nat) (p : Bool) :
    get_bundle_by_id (update_bundle_privacy db bid p) bid
      = (get_bundle_by_id db bid).map (fun b => { b with is_public := p }) := by
  unfold get_bundle_by_id update_bundle_privacy
  dsimp only
  rw [List.find?_map]
  have hcomp : ((fun b : BundleRec => b.id == bid) ∘
      (fun b => if b.id = bid then { b with is_public := p } else b))
      = (fun b : BundleRec => b.id == bid) := by
    funext x
    by_cases h : x.id = bid <;> simp [h]
  rw [hcomp]
  cases hb2 : db.bundles.find? (fun b => b.id == bid) with
  | none => rfl
  | some bd =>
    have hbd : bd.id = bid := by simpa using List.find?_some hb2
    simp [hbd]

theorem update_file_privacy_twice (db : DB) (fid : Nat) (p q : Bool) :
    update_file_privacy (update_file_privacy db fid p) fid q
      = update_file_privacy db fid q := by
  unfold update_file_privacy
  dsimp only
  rw [List.map_map]
  have hcomp : ((fun f : FileRec => if f.id = fid then { f with is_public := q } else f)
      ∘ (fun f => if f.id = fid then { f with is_public := p } else f))
      = (fun f : FileRec => if f.id = fid then { f with is_public := q } else f) := by
    funext f
    by_cases h : f.id = fid <;> simp [h]
  rw [hcomp]

theorem update_bundle_privacy_twice (db : DB) (bid : Nat) (p q : Bool) :
    update_bundle_privacy (update_bundle_privacy db bid p) bid q
      = update_bundle_privacy db bid q := by
  unfold update_bundle_privacy
  dsimp only
  rw [List.map_map]
  have hcomp : ((fun b : BundleRec => if b.id = bid then { b with is_public := q } else b)
      ∘ (fun b => if b.id = bid then { b with is_public := p } else b))
      = (fun b : BundleRec => if b.id = bid then { b with is_public := q } else b) := by
    funext b
    by_cases h : b.id = bid <;> simp [h]
  rw [hcomp]

theorem update_file_privacy_restore (db : DB) (fid : Nat) (fd : FileRec)
    (hf : get_file_by_id db fid = some fd)
    (hids : (db.files.map (fun f => f.id)).Nodup) :
    update_file_privacy db fid fd.is_public = db := by
  have hf' : db.files.find? (fun x => x.id == fid) = some fd := hf
  obtain ⟨l1, l2, hsplit, hl1⟩ := find?_decomp _ hf'
  have hfid : fd.id = fid := by simpa using List.find?_some hf'
  have hids' : ((l1 ++ fd :: l2).map (fun x => x.id)).Nodup := by
    rw [← hsplit]; exact hids
  obtain ⟨-, hB⟩ := nodup_ids_split l1 l2 fd hids'
  have hfiles : db.files.map
      (fun f => if f.id = fid then { f with is_public := fd.is_public } else f)
      = db.files := by
    rw [hsplit, List.map_append, List.map_cons,
      map_eq_self_of l1 _ (fun x hx => if_neg (by simpa using hl1 x hx)),
      map_eq_self_of l2 _ (fun x hx => if_neg (fun heq => hB x hx (heq.trans hfid.symm))),
      if_pos hfid]
  unfold update_file_privacy
  rw [hfiles]

theorem update_bundle_privacy_restore (db : DB) (bid : Nat) (bd : BundleRec)
    (hb : get_bundle_by_id db bid = some bd)
    (hids : (db.bundles.map (fun b => b.id)).Nodup) :
    update_bundle_privacy db bid bd.is_public = db := by
  have hb' : db.bundles.find? (fun x => x.id == bid) = some bd := hb
  obtain ⟨l1, l2, hsplit, hl1⟩ := find?_decomp _ hb'
  have hbid : bd.id = bid := by simpa using List.find?_some hb'
  have hids' : ((l1 ++ bd :: l2).map (fun x => x.id)).Nodup := by
    rw [← hsplit]; exact hids
  obtain ⟨-, hB⟩ := nodup_split (fun x => x.id) l1 l2 bd hids'
  have hbundles : db.bundles.map
      (fun b => if b.id = bid then { b with is_public := bd.is_public } else b)
      = db.bundles := by
    rw [hsplit, List.map_append, List.map_cons,
      map_eq_self_of l1 _ (fun x hx => if_neg (by simpa using hl1 x hx)),
      map_eq_self_of l2 _ (fun x hx => if_neg (fun heq => hB x hx (heq.trans hbid.symm))),
      if_pos hbid]
  unfold update_bundle_privacy
  rw [hbundles]

/-- `view_file_content` never changes the state (the handler performs no
database call and no blob write). -/
theorem view_file_content_snd (sys : Sys) (c : Option Nat) (t : String) :
    (view_file_content sys c t).2 = sys := by
  unfold view_file_content
  split
  · rfl
  · split
    · rfl
    · split
      · split <;> rfl
      · split <;> rfl

/-- Every request leaves the files table unchanged, rewrites rows
preserving id and share_token, deletes rows, or appends one row carrying
the fresh id `nextFileId`. -/
theorem step_files_shape (sys : Sys) (op : Op) :
    (step sys op).db.files = sys.db.files ∨
    (∃ g, (∀ a, (g a).id = a.id ∧ (g a).share_token = a.share_token) ∧
      (step sys op).db.files = sys.db.files.map g) ∨
    (∃ p, (step sys op).db.files = sys.db.files.filter p) ∨
    (∃ row : FileRec, row.id = sys.db.nextFileId ∧
      (step sys op).db.files = sys.db.files ++ [row]) := by
  cases op with
  | uploadOp c o p t u tok fs b =>
    simp only [step]
    unfold upload
    cases c with
    | none => left; rfl
    | some uid =>
      dsimp only
      split
      · left; rfl
      split
      · left; rfl
      split
      · split
        · left; rfl
        · split
          · left; rfl
          · next db2 hc =>
            unfold create_file at hc
            split at hc
            · exact absurd hc (by simp)
            · simp only [Option.some.injEq] at hc
              subst hc
              right; right; right
              exact ⟨_, rfl, rfl⟩
      · left; rfl
  | viewOp c t =>
    simp only [step]
    rw [view_file_content_snd]
    left; rfl
  | downloadOp c t =>
    simp only [step]
    unfold download_file
    split
    · left; rfl
    · next fd heq =>
      split
      · left; rfl
      · right; left
        refine ⟨fun f => if f.id = fd.id then
          { f with download_count := f.download_count + 1 } else f, ?_, rfl⟩
        intro a
        constructor
        · by_cases h : a.id = fd.id <;> simp [h]
        · by_cases h : a.id = fd.id <;> simp [h]
  | togglePublicOp c fid =>
    simp only [step]
    unfold toggle_public
    split
    · left; rfl
    · split
      · left; rfl
      · next fd heq =>
        split
        · left; rfl
        · right; left
          refine ⟨fun f => if f.id = fid then
            { f with is_public := !fd.is_public } else f, ?_, rfl⟩
          intro a
          constructor
          · by_cases h : a.id = fid <;> simp [h]
          · by_cases h : a.id = fid <;> simp [h]
  | deleteFileOp c fid =>
    simp only [step]
    unfold delete_file
    split
    · left; rfl
    split
    · left; rfl
    split
    · left; rfl
    · right; right; left
      exact ⟨_, rfl⟩
  | renameFileOp c fid n =>
    simp only [step]
    unfold rename_file
    split
    · left; rfl
    split
    · left; rfl
    split
    · left; rfl
    split
    · left; rfl
    · right; left
      refine ⟨fun f => if f.id = fid then
        { f with original_filename := pyStrip n } else f, ?_, rfl⟩
      intro a
      constructor
      · by_cases h : a.id = fid <;> simp [h]
      · by_cases h : a.id = fid <;> simp [h]
  | createBundleOp c n t sel p tok =>
    simp only [step]
    unfold create_bundle_route
    split
    · left; rfl
    split
    · left; rfl
    · split
      · left; rfl
      · next db1 bid hc =>
        left
        unfold create_bundle at hc
        split at hc
        · exact absurd hc (by simp)
        · simp only [Option.some.injEq, Prod.mk.injEq] at hc
          obtain ⟨hdb, -⟩ := hc
          subst hdb
          split
          · rw [(foldl_add_frame sel bid _).1]
          · rfl
  | downloadBundleOp c t =>
    simp only [step]
    unfold download_bundle
    split
    · left; rfl
    · split
      · left; rfl
      · left; rfl
  | toggleBundlePublicOp c bid =>
    simp only [step]
    unfold toggle_bundle_public
    split
    · left; rfl
    split
    · left; rfl
    split
    · left; rfl
    · left; rfl
  | editBundleOp c bid n t sel p =>
    simp only [step]
    unfold edit_bundle
    split
    · left; rfl
    split
    · left; rfl
    split
    · left; rfl
    split
    · left; rfl
    · left
      rw [(foldl_add_frame sel bid _).1]
      rfl
  | deleteBundleOp c bid =>
    simp only [step]
    unfold delete_bundle
    split
    · left; rfl
    split
    · left; rfl
    split
    · left; rfl
    · left; rfl

/-- Every request leaves the bundles table unchanged, rewrites rows
preserving id and share_token, deletes rows, or appends one row carrying
the fresh id `nextBundleId`. -/
theorem step_bundles_shape (sys : Sys) (op : Op) :
    (step sys op).db.bundles = sys.db.bundles ∨
    (∃ g, (∀ a, (g a).id = a.id ∧ (g a).share_token = a.share_token) ∧
      (step sys op).db.bundles = sys.db.bundles.map g) ∨
    (∃ p, (step sys op).db.bundles = sys.db.bundles.filter p) ∨
    (∃ row : BundleRec, row.id = sys.db.nextBundleId ∧
      (step sys op).db.bundles = sys.db.bundles ++ [row]) := by
  cases op with
  | uploadOp c o p t u tok fs b =>
    simp only [step]
    unfold upload
    cases c with
    | none => left; rfl
    | some uid =>
      dsimp only
      split
      · left; rfl
      split
      · left; rfl
      split
      · split
        · left; rfl
        · split
          · left; rfl
          · next db2 hc =>
            unfold create_file at hc
            split at hc
            · exact absurd hc (by simp)
            · simp only [Option.some.injEq] at hc
              subst hc
              left; rfl
      · left; rfl
  | viewOp c t =>
    simp only [step]
    rw [view_file_content_snd]
    left; rfl
  | downloadOp c t =>
    simp only [step]
    unfold download_file
    split
    · left; rfl
    · split
      · left; rfl
      · left; rfl
  | togglePublicOp c fid =>
    simp only [step]
    unfold toggle_public
    split
    · left; rfl
    split
    · left; rfl
    split
    · left; rfl
    · left; rfl
  | deleteFileOp c fid =>
    simp only [step]
    unfold delete_file
    split
    · left; rfl
    split
    · left; rfl
    split
    · left; rfl
    · left; rfl
  | renameFileOp c fid n =>
    simp only [step]
    unfold rename_file
    split
    · left; rfl
    split
    · left; rfl
    split
    · left; rfl
    split
    · left; rfl
    · left; rfl
  | createBundleOp c n t sel p tok =>
    simp only [step]
    unfold create_bundle_route
    split
    · left; rfl
    · next uid =>
      split
      · left; rfl
      · split
        · left; rfl
        · next db1 bid hc =>
          unfold create_bundle at hc
          split at hc
          · exact absurd hc (by simp)
          · simp only [Option.some.injEq, Prod.mk.injEq] at hc
            obtain ⟨hdb, -⟩ := hc
            subst hdb
            split
            · right; right; right
              refine ⟨{ id := sys.db.nextBundleId, bundle_name := n, transaction_number := t, user_id := uid, is_public := p, share_token := tok, download_count := 0 }, rfl, ?_⟩
              rw [(foldl_add_frame sel bid _).2.1]
            · right; right; right
              exact ⟨{ id := sys.db.nextBundleId, bundle_name := n, transaction_number := t, user_id := uid, is_public := p, share_token := tok, download_count := 0 }, rfl, rfl⟩
  | downloadBundleOp c t =>
    simp only [step]
    unfold download_bundle
    split
    · left; rfl
    · next bd heq =>
      split
      · left; rfl
      · right; left
        refine ⟨fun x => if x.id = bd.id then
          { x with download_count := x.download_count + 1 } else x, ?_, rfl⟩
        intro a
        constructor
        · by_cases h : a.id = bd.id <;> simp [h]
        · by_cases h : a.id = bd.id <;> simp [h]
  | toggleBundlePublicOp c bid =>
    simp only [step]
    unfold toggle_bundle_public
    split
    · left; rfl
    · split
      · left; rfl
      · next bd heq =>
        split
        · left; rfl
        · right; left
          refine ⟨fun x => if x.id = bid then
            { x with is_public := !bd.is_public } else x, ?_, rfl⟩
          intro a
          constructor
          · by_cases h : a.id = bid <;> simp [h]
          · by_cases h : a.id = bid <;> simp [h]
  | editBundleOp c bid n t sel p =>
    simp only [step]
    unfold edit_bundle
    split
    · left; rfl
    split
    · left; rfl
    split
    · left; rfl
    split
    · left; rfl
    · right; left
      refine ⟨fun x => if x.id = bid then
        { x with bundle_name := n, transaction_number := t, is_public := p }
        else x, ?_, ?_⟩
      · intro a
        constructor
        · by_cases h : a.id = bid <;> simp [h]
        · by_cases h : a.id = bid <;> simp [h]
      · rw [(foldl_add_frame sel bid _).2.1]
        rfl
  | deleteBundleOp c bid =>
    simp only [step]
    unfold delete_bundle
    split
    · left; rfl
    split
    · left; rfl
    split
    · left; rfl
    · right; right; left
      exact ⟨_, rfl⟩

/-- Under the machine invariant, no request changes the share token of any
file or bundle row that survives it. -/
theorem step_preserves_tokens (sys : Sys) (op : Op) (hinv : DBInv sys.db) :
    (∀ f ∈ sys.db.files, ∀ f' ∈ (step sys op).db.files,
      f'.id = f.id → f'.share_token = f.share_token) ∧
    (∀ b ∈ sys.db.bundles, ∀ b' ∈ (step sys op).db.bundles,
      b'.id = b.id → b'.share_token = b.share_token) := by
  obtain ⟨-, -, hif, hib, hbf, hbb⟩ := hinv
  constructor
  · rcases step_files_shape sys op with he | ⟨g, hg, he⟩ | ⟨p, he⟩ | ⟨row, hrow, he⟩
    · intro f hf f' hf' heq
      rw [he] at hf'
      rw [List.inj_on_of_nodup_map hif hf' hf heq]
    · intro f hf f' hf' heq
      rw [he] at hf'
      obtain ⟨f0, hf0, rfl⟩ := List.mem_map.1 hf'
      rw [(hg f0).2]
      have h0 : f0.id = f.id := by rw [← (hg f0).1]; exact heq
      rw [List.inj_on_of_nodup_map hif hf0 hf h0]
    · intro f hf f' hf' heq
      rw [he] at hf'
      exact congrArg (fun x => x.share_token)
        (List.inj_on_of_nodup_map hif (List.mem_of_mem_filter hf') hf heq)
    · intro f hf f' hf' heq
      rw [he] at hf'
      rcases List.mem_append.1 hf' with hf' | hf'
      · rw [List.inj_on_of_nodup_map hif hf' hf heq]
      · simp only [List.mem_singleton] at hf'
        subst hf'
        have hlt := hbf f hf
        rw [← heq, hrow] at hlt
        exact absurd hlt (lt_irrefl _)
  · rcases step_bundles_shape sys op with he | ⟨g, hg, he⟩ | ⟨p, he⟩ | ⟨row, hrow, he⟩
    · intro b hb b' hb' heq
      rw [he] at hb'
      rw [List.inj_on_of_nodup_map hib hb' hb heq]
    · intro b hb b' hb' heq
      rw [he] at hb'
      obtain ⟨b0, hb0, rfl⟩ := List.mem_map.1 hb'
      rw [(hg b0).2]
      have h0 : b0.id = b.id := by rw [← (hg b0).1]; exact heq
      rw [List.inj_on_of_nodup_map hib hb0 hb h0]
    · intro b hb b' hb' heq
      rw [he] at hb'
      exact congrArg (fun x => x.share_token)
        (List.inj_on_of_nodup_map hib (List.mem_of_mem_filter hb') hb heq)
    · intro b hb b' hb' heq
      rw [he] at hb'
      rcases List.mem_append.1 hb' with hb' | hb'
      · rw [List.inj_on_of_nodup_map hib hb' hb heq]
      · simp only [List.mem_singleton] at hb'
        subst hb'
        have hlt := hbb b hb
        rw [← heq, hrow] at hlt
        exact absurd hlt (lt_irrefl _)

/-- C5: toggling visibility flips only the `is_public` field — under
`forgetPub` the row list is unchanged, so the share token and every other
field stay intact, as do all other tables; toggling twice restores the
database exactly, so anonymous reads behave exactly as before with the
original token value; and across every request of the machine, a file or
bundle row that persists keeps its share token — the token is never
rotated, revoked or regenerated, making the visibility flag the only
revocation mechanism. -/
theorem C5_toggle_only_visibility (db : DB) (uid fid bid : Nat)
    (fd : FileRec) (bd : BundleRec)
    (hf : get_file_by_id db fid = some fd) (hfo : fd.user_id = uid)
    (hb : get_bundle_by_id db bid = some bd) (hbo : bd.user_id = uid)
    (hids : (db.files.map (fun f => f.id)).Nodup)
    (hbids : (db.bundles.map (fun b => b.id)).Nodup) :
    toggle_public db (some uid) fid
      = (.ok, update_file_privacy db fid (!fd.is_public)) ∧
    ((update_file_privacy db fid (!fd.is_public)).files.map forgetPub
      = db.files.map forgetPub) ∧
    ((update_file_privacy db fid (!fd.is_public)).files.map (fun f => f.share_token)
      = db.files.map (fun f => f.share_token)) ∧
    (update_file_privacy db fid (!fd.is_public)).bundles = db.bundles ∧
    (update_file_privacy db fid (!fd.is_public)).bundle_files = db.bundle_files ∧
    toggle_bundle_public db (some uid) bid
      = (.ok, update_bundle_privacy db bid (!bd.is_public)) ∧
    ((update_bundle_privacy db bid (!bd.is_public)).bundles.map forgetPubB
      = db.bundles.map forgetPubB) ∧
    ((update_bundle_privacy db bid (!bd.is_public)).bundles.map (fun b => b.share_token)
      = db.bundles.map (fun b => b.share_token)) ∧
    (update_bundle_privacy db bid (!bd.is_public)).files = db.files ∧
    (toggle_public (toggle_public db (some uid) fid).2 (some uid) fid).2 = db ∧
    (toggle_bundle_public (toggle_bundle_public db (some uid) bid).2 (some uid) bid).2
      = db ∧
    (∀ caller token fb,
      shared_file (toggle_public (toggle_public db (some uid) fid).2 (some uid) fid).2
        caller token fb = shared_file db caller token fb) ∧
    (∀ sys op, Reachable sys →
      (∀ f ∈ sys.db.files, ∀ f' ∈ (step sys op).db.files,
        f'.id = f.id → f'.share_token = f.share_token) ∧
      (∀ b ∈ sys.db.bundles, ∀ b' ∈ (step sys op).db.bundles,
        b'.id = b.id → b'.share_token = b.share_token)) := by
  have hdouble :
      (toggle_public (toggle_public db (some uid) fid).2 (some uid) fid).2 = db := by
    rw [toggle_public_eq_ok db uid fid fd hf hfo]
    have hf1 : get_file_by_id (update_file_privacy db fid (!fd.is_public)) fid
        = some { fd with is_public := !fd.is_public } := by
      rw [get_file_by_id_update_privacy, hf]; rfl
    rw [show ((Res.ok, update_file_privacy db fid (!fd.is_public)).2)
        = update_file_privacy db fid (!fd.is_public) from rfl,
      toggle_public_eq_ok _ uid fid _ hf1 hfo]
    show update_file_privacy (update_file_privacy db fid (!fd.is_public)) fid
      (!(!fd.is_public)) = db
    rw [update_file_privacy_twice, Bool.not_not,
      update_file_privacy_restore db fid fd hf hids]
  have hbdouble :
      (toggle_bundle_public (toggle_bundle_public db (some uid) bid).2
        (some uid) bid).2 = db := by
    rw [toggle_bundle_public_eq_ok db uid bid bd hb hbo]
    have hb1 : get_bundle_by_id (update_bundle_privacy db bid (!bd.is_public)) bid
        = some { bd with is_public := !bd.is_public } := by
      rw [get_bundle_by_id_update_privacy, hb]; rfl
    rw [show ((Res.ok, update_bundle_privacy db bid (!bd.is_public)).2)
        = update_bundle_privacy db bid (!bd.is_public) from rfl,
      toggle_bundle_public_eq_ok _ uid bid _ hb1 hbo]
    show update_bundle_privacy (update_bundle_privacy db bid (!bd.is_public)) bid
      (!(!bd.is_public)) = db
    rw [update_bundle_privacy_twice, Bool.not_not,
      update_bundle_privacy_restore db bid bd hb hbids]
  refine ⟨toggle_public_eq_ok db uid fid fd hf hfo, ?_, ?_, rfl, rfl,
    toggle_bundle_public_eq_ok db uid bid bd hb hbo, ?_, ?_, rfl,
    hdouble, hbdouble, ?_, ?_⟩
  · unfold update_file_privacy
    dsimp only
    exact map_map_eq_self _ _ _ (fun a => by
      by_cases h : a.id = fid <;> simp [forgetPub, h])
  · unfold update_file_privacy
    dsimp only
    exact map_map_eq_self _ _ _ (fun a => by
      by_cases h : a.id = fid <;> simp [h])
  · unfold update_bundle_privacy
    dsimp only
    exact map_map_eq_self _ _ _ (fun a => by
      by_cases h : a.id = bid <;> simp [forgetPubB, h])
  · unfold update_bundle_privacy
    dsimp only
    exact map_map_eq_self _ _ _ (fun a => by
      by_cases h : a.id = bid <;> simp [h])
  · intro caller token fb
    rw [hdouble]
  · intro sys op hreach
    exact step_preserves_tokens sys op (reachable_dbinv hreach)

/-- The bundle row of `sysOwnBundle`. -/
def ownBundleRec : BundleRec :=
  { id := 1, bundle_name := "b", transaction_number := "btx", user_id := 1,
    is_public := true, share_token := "btok", download_count := 0 }

theorem C5_toggle_only_visibility_witness :
    toggle_public sysOwnBundle.db (some 1) 1
      = (.ok, update_file_privacy sysOwnBundle.db 1 (!fileRec1.is_public)) ∧
    (toggle_public (toggle_public sysOwnBundle.db (some 1) 1).2 (some 1) 1).2
      = sysOwnBundle.db ∧
    (∀ caller token fb,
      shared_file (toggle_public (toggle_public sysOwnBundle.db (some 1) 1).2
        (some 1) 1).2 caller token fb
        = shared_file sysOwnBundle.db caller token fb) := by
  obtain ⟨w1, -, -, -, -, -, -, -, -, w10, -, w12, -⟩ :=
    C5_toggle_only_visibility sysOwnBundle.db 1 1 1 fileRec1 ownBundleRec
      (by decide) (by decide) (by decide) (by decide) (by decide) (by decide)
  exact ⟨w1, w10, w12⟩

end FileSharing
